import Mathlib

/-!
Verification of the elroi-vision image-analysis pipeline.

The Python sources under `src/` are shallowly embedded here:
pure numeric routines become Lean functions over `ℚ` (exact rationals in
place of Python floats) or `ℝ` where the source uses non-rational
operations (power `** 2.4`, square roots); images are modelled as lists
of RGB pixel triples (channel values are naturals, 0–255 in the source's
`uint8` arrays); Python dictionaries become Lean structures; code that can
raise an exception visible to its caller is modelled with `Except`.
-/

namespace ElroiVision

/-- Python's `round(x, d)` on a rational, i.e. rounding to `d` decimal
digits.  Mathlib's `round` rounds half away from zero upward while Python
rounds half to even; the two agree except on exact ties, which none of the
values appearing in the claims hit. -/
def roundTo (d : ℕ) (q : ℚ) : ℚ := (round ((10 : ℚ) ^ d * q) : ℤ) / (10 : ℚ) ^ d

/-- `round(x, 1)` from the source. -/
def round1 (q : ℚ) : ℚ := roundTo 1 q

/-- `round(x, 2)` from the source. -/
def round2 (q : ℚ) : ℚ := roundTo 2 q

/-- `round(x, 3)` from the source. -/
def round3 (q : ℚ) : ℚ := roundTo 3 q

/-- An RGB pixel: three channel values (0–255 in the source's `uint8`
arrays; the bound is carried as a hypothesis where a theorem needs it). -/
abbrev Pixel : Type := ℕ × ℕ × ℕ

/-- `services/colors.py`, `ColorAnalysisService._classify_color_emotion`
(lines 78–111): classifies an HSV triple (each component in `[0,1]`) into
an emotional tag, by the source's if/elif chain on `h_deg = h * 360`. -/
def classify_color_emotion (h s v : ℚ) : String :=
  let h_deg := h * 360
  if v < 3/10 then "dark"
  else if v > 8/10 ∧ s < 3/10 then "light"
  else if s < 3/10 then "neutral"
  else if (0 ≤ h_deg ∧ h_deg < 30) ∨ h_deg ≥ 330 then "warm-energetic"
  else if 30 ≤ h_deg ∧ h_deg < 90 then "cheerful"
  else if 90 ≤ h_deg ∧ h_deg < 150 then "fresh"
  else if 150 ≤ h_deg ∧ h_deg < 210 then "calm"
  else if 210 ≤ h_deg ∧ h_deg < 270 then "trustworthy"
  else if 270 ≤ h_deg ∧ h_deg < 330 then "creative"
  else "neutral"

/-- Modelled from the claim's words, for comparison with
`classify_color_emotion`: the priority rules followed by bucketing the hue
into 60-degree bands starting at 0° (band centres 0°, 60°, …), wrapping at
330°, computed arithmetically as `⌊((h·360 + 30) mod 360) / 60⌋`. -/
def classifyColorEmotionSpec (h s v : ℚ) : String :=
  if v < 3/10 then "dark"
  else if v > 8/10 ∧ s < 3/10 then "light"
  else if s < 3/10 then "neutral"
  else
    let shifted := h * 360 + 30
    let wrapped := shifted - 360 * ⌊shifted / 360⌋
    match (⌊wrapped / 60⌋ : ℤ) with
    | 0 => "warm-energetic"
    | 1 => "cheerful"
    | 2 => "fresh"
    | 3 => "calm"
    | 4 => "trustworthy"
    | _ => "creative"

/-- A color as consumed by `calculate_contrast`: an RGB triple of byte
channel values, modelling the `uint8` tuples the source passes around. -/
abbrev Color256 : Type := Fin 256 × Fin 256 × Fin 256

/-- The gamma-correction branch `adjust` nested in
`ColorAnalysisService.calculate_contrast` (`services/colors.py` lines
128–131): linear below 0.03928, power law above. -/
noncomputable def wcag_adjust (c : ℝ) : ℝ :=
  if c ≤ 0.03928 then c / 12.92 else ((c + 0.055) / 1.055) ^ (2.4 : ℝ)

/-- `get_luminance` nested in `calculate_contrast` (`services/colors.py`
lines 124–137): WCAG relative luminance of an RGB color. -/
noncomputable def get_luminance (rgb : Color256) : ℝ :=
  0.2126 * wcag_adjust ((rgb.1 : ℝ) / 255) +
    0.7152 * wcag_adjust ((rgb.2.1 : ℝ) / 255) +
    0.0722 * wcag_adjust ((rgb.2.2 : ℝ) / 255)

/-- Python's `round(x, 2)` on a real value. -/
noncomputable def roundR2 (x : ℝ) : ℝ := (round (100 * x) : ℤ) / 100

/-- `services/colors.py`, `ColorAnalysisService.calculate_contrast`
(lines 113–146): WCAG contrast ratio between two colors, rounded to two
decimal digits. -/
noncomputable def calculate_contrast (color1 color2 : Color256) : ℝ :=
  let l1 := get_luminance color1
  let l2 := get_luminance color2
  let lighter := max l1 l2
  let darker := min l1 l2
  roundR2 ((lighter + 0.05) / (darker + 0.05))

/-- The distinct elements of a list in first-occurrence order: the key
order produced by Python's `Counter` (a dict keyed by first insertion). -/
def uniqueFirst {α : Type} [DecidableEq α] : List α → List α
  | [] => []
  | a :: l => a :: uniqueFirst (l.filter (fun x => x ≠ a))
  termination_by l => l.length
  decreasing_by
    exact Nat.lt_succ_of_le (List.length_filter_le _ _)

/-- Insert a `(key, count)` pair into a list sorted by count descending,
placing it before later-inserted pairs of equal count (stability). -/
def insertByCount {α : Type} (x : α × ℕ) : List (α × ℕ) → List (α × ℕ)
  | [] => [x]
  | y :: l => if x.2 < y.2 then y :: insertByCount x l else x :: y :: l

/-- Stable sort by count descending, modelling the order of
`Counter.most_common` (counts descending, ties in first-insertion
order). -/
def sortByCountDesc {α : Type} : List (α × ℕ) → List (α × ℕ)
  | [] => []
  | x :: l => insertByCount x (sortByCountDesc l)

/-- `Counter(l).most_common(n)`: the `n` most frequent elements of `l`
with their counts, counts descending, ties in first-occurrence order. -/
def most_common {α : Type} [DecidableEq α] [BEq α] (n : ℕ) (l : List α) : List (α × ℕ) :=
  (sortByCountDesc ((uniqueFirst l).map (fun c => (c, l.count c)))).take n

/-- `colorsys.rgb_to_hsv` from the Python standard library (exact
rational port), as called by `extract_dominant_colors` on channel values
already divided by 255.  Python's `(h / 6.0) % 1.0` is `Int.fract`. -/
def rgb_to_hsv (r g b : ℚ) : ℚ × ℚ × ℚ :=
  let maxc := max r (max g b)
  let minc := min r (min g b)
  let v := maxc
  if minc = maxc then (0, 0, v)
  else
    let s := (maxc - minc) / maxc
    let rc := (maxc - r) / (maxc - minc)
    let gc := (maxc - g) / (maxc - minc)
    let bc := (maxc - b) / (maxc - minc)
    let h := if r = maxc then bc - gc
             else if g = maxc then 2 + rc - bc
             else 4 + gc - rc
    (Int.fract (h / 6), s, v)

/-- One lowercase hexadecimal digit. -/
def hexDigitChar (n : ℕ) : Char :=
  if n < 10 then Char.ofNat (48 + n) else Char.ofNat (87 + n)

/-- Python's `f"{n:02x}"` for a byte value. -/
def hex2 (n : ℕ) : String := String.mk [hexDigitChar (n / 16 % 16), hexDigitChar (n % 16)]

/-- The hex string `f"#{r:02x}{g:02x}{b:02x}"` built at
`services/colors.py` line 49. -/
def rgbToHex (c : Pixel) : String := "#" ++ hex2 c.1 ++ hex2 c.2.1 ++ hex2 c.2.2

/-- The per-pixel quantization `(pixels // 32) * 32` at
`services/colors.py` line 39 (numpy integer division is floor division,
as is `Nat` division). -/
def quantizePixel (p : Pixel) : Pixel :=
  (p.1 / 32 * 32, p.2.1 / 32 * 32, p.2.2 / 32 * 32)

/-- One entry of the list built by `extract_dominant_colors`
(`services/colors.py` lines 61–71).  The `hsv` field holds the rounded
degree/percent values stored in the dict. -/
structure ColorEntry where
  rgb : Pixel
  hex : String
  percentage : ℚ
  hsv : ℚ × ℚ × ℚ
  emotion_tag : String
deriving DecidableEq

/-- `services/colors.py`, `ColorAnalysisService.extract_dominant_colors`
(lines 14–76).  The PIL `resize((150, 150))` step is abstracted by taking
the post-resize pixel list as input (any 22500-pixel list is realizable:
resizing a 150×150 image to 150×150 is the identity), and the RGBA branch
by the input already being RGB triples.  The `except` fallback returning
`[]` is unreachable for a well-typed pixel list, so the function is the
`try` body. -/
def extract_dominant_colors (pixels : List Pixel) (n_colors : ℕ) : List ColorEntry :=
  let total_pixels := pixels.length
  let quantized := pixels.map quantizePixel
  let mc := most_common n_colors quantized
  mc.map (fun ck =>
    let c := ck.1
    let percentage : ℚ := ((ck.2 : ℚ) / (total_pixels : ℚ)) * 100
    let hsv := rgb_to_hsv ((c.1 : ℚ) / 255) ((c.2.1 : ℚ) / 255) ((c.2.2 : ℚ) / 255)
    { rgb := c
      hex := rgbToHex c
      percentage := round2 percentage
      hsv := (round1 (hsv.1 * 360), round1 (hsv.2.1 * 100), round1 (hsv.2.2 * 100))
      emotion_tag := classify_color_emotion hsv.1 hsv.2.1 hsv.2.2 })

/-- Reduction of a natural channel value to the byte it occupies in the
source's `uint8` arrays. -/
def byteOf (n : ℕ) : Fin 256 := ⟨n % 256, Nat.mod_lt n (by norm_num)⟩

/-- Byte view of a pixel triple. -/
def byteOf3 (p : Pixel) : Color256 := (byteOf p.1, byteOf p.2.1, byteOf p.2.2)

/-- The pairwise contrasts between adjacent-ranked dominant colors
computed by `analyze_image_colors` (`services/colors.py` lines 161–167);
the `len ≥ 2` guard is subsumed by the empty result on shorter lists. -/
noncomputable def adjacentContrasts : List ColorEntry → List ℝ
  | a :: b :: rest => calculate_contrast (byteOf3 a.rgb) (byteOf3 b.rgb) :: adjacentContrasts (b :: rest)
  | _ => []

/-- `max(set(emotion_tags), key=emotion_tags.count)` at
`services/colors.py` line 171: a tag of maximal multiplicity.  Python
iterates the set in an unspecified (hash-dependent) order and `max` keeps
the first maximal element of that order; this model resolves ties to the
first-occurring maximal tag, one of the orders Python can produce. -/
def maxByCount (tags : List String) : String :=
  match uniqueFirst tags with
  | [] => "neutral"
  | u :: us => us.foldl (fun best t => if tags.count t > tags.count best then t else best) u

/-- The dict returned by `analyze_image_colors` (`services/colors.py`
lines 173–178). -/
structure ColorReport where
  dominant_colors : List ColorEntry
  average_contrast : ℝ
  emotion_palette : String
  color_count : ℕ

/-- `services/colors.py`, `ColorAnalysisService.analyze_image_colors`
(lines 148–178). -/
noncomputable def analyze_image_colors (pixels : List Pixel) (n_colors : ℕ) : ColorReport :=
  let dominant_colors := extract_dominant_colors pixels n_colors
  let contrast_scores := adjacentContrasts dominant_colors
  let emotion_tags := (dominant_colors.filter (fun c => c.percentage > 10)).map (fun c => c.emotion_tag)
  { dominant_colors := dominant_colors
    average_contrast :=
      if contrast_scores.isEmpty then 0
      else roundR2 (contrast_scores.sum / contrast_scores.length)
    emotion_palette := if emotion_tags.isEmpty then "neutral" else maxByCount emotion_tags
    color_count := dominant_colors.length }

/-- Python's `str.lower()`.  Lean's `Char.toLower` lowers the ASCII
range; the handful of accented keyword characters are already lowercase
in the source's keyword list, so nothing in the claims depends on
non-ASCII case mapping. -/
def strLower (s : String) : String := String.mk (s.toList.map Char.toLower)

/-- `needle` occurs at the head of `hay`. -/
def charsAtHead : List Char → List Char → Bool
  | [], _ => true
  | _ :: _, [] => false
  | a :: xs, b :: ys => a == b && charsAtHead xs ys

/-- Substring occurrence over character lists. -/
def charsContain (hay needle : List Char) : Bool :=
  match hay with
  | [] => needle.isEmpty
  | _ :: t => charsAtHead needle hay || charsContain t needle

/-- Python's `needle in hay` on strings. -/
def strContains (hay needle : String) : Bool := charsContain hay.toList needle.toList

/-- `CTAService.CTA_KEYWORDS` (`services/cta.py` lines 14–24). -/
def CTA_KEYWORDS : List String :=
  ["compre", "buy", "comprar", "adquira", "peça", "order",
   "saiba mais", "learn more", "descubra", "discover",
   "cadastre-se", "sign up", "registre-se", "register",
   "baixe", "download", "baixar",
   "clique", "click", "toque", "tap",
   "agora", "now", "já", "already",
   "grátis", "free", "gratuito",
   "oferta", "offer", "promoção", "promotion",
   "experimente", "try", "teste", "test"]

/-- A bounding box as read out of the OCR segment dicts
(`bbox.get("xmin", 0)` etc.). -/
structure Bbox where
  xmin : ℚ
  ymin : ℚ
  xmax : ℚ
  ymax : ℚ
deriving DecidableEq

/-- A text segment as supplied by the OCR service. -/
structure TextSeg where
  text : String
  bbox : Bbox
  confidence : ℚ
deriving DecidableEq

/-- The `position` sub-dict of a detected CTA element
(`services/cta.py` lines 77–82). -/
structure CtaPosition where
  x : ℚ
  y : ℚ
  normalized_x : ℚ
  normalized_y : ℚ
deriving DecidableEq

/-- One detected CTA element (`services/cta.py` lines 73–86). -/
structure CtaElem where
  text : String
  keywords : List String
  bbox : Bbox
  position : CtaPosition
  is_strategic_position : Bool
  relative_size : ℚ
  confidence : ℚ
deriving DecidableEq

/-- `services/cta.py`, `CTAService.detect_cta_elements` (lines 26–88).
`image_width` and `image_height` are the PIL `image.size` (positive
integers for a real image; rational parameters here). -/
def detect_cta_elements (image_width image_height : ℚ)
    (text_segments : List TextSeg) : List CtaElem :=
  text_segments.filterMap (fun segment =>
    let text := strLower segment.text
    let bbox := segment.bbox
    let cta_keywords_found := CTA_KEYWORDS.filter (fun k => strContains text (strLower k))
    if cta_keywords_found.isEmpty then none
    else
      let x_center := (bbox.xmin + bbox.xmax) / 2
      let y_center := (bbox.ymin + bbox.ymax) / 2
      let normalized_x := x_center / image_width
      let normalized_y := y_center / image_height
      let is_strategic_position : Bool :=
        (normalized_x > 6/10 ∧ normalized_y > 6/10)
          ∨ (normalized_x > 4/10 ∧ normalized_x < 6/10 ∧ normalized_y > 7/10)
      let text_width := bbox.xmax - bbox.xmin
      let text_height := bbox.ymax - bbox.ymin
      let relative_size := (text_width * text_height) / (image_width * image_height)
      some
        { text := segment.text
          keywords := cta_keywords_found
          bbox := bbox
          position :=
            { x := round1 x_center
              y := round1 y_center
              normalized_x := round3 normalized_x
              normalized_y := round3 normalized_y }
          is_strategic_position := is_strategic_position
          relative_size := round2 (relative_size * 100)
          confidence := segment.confidence })

/-- Mean of the red channel over an image's pixels (as a rational; in the
source `np.mean` over the `float32` view of the channel). -/
def rMean (pixels : List Pixel) : ℚ := ((pixels.map (fun p => p.1)).sum : ℚ) / (pixels.length : ℚ)

/-- Mean of the green channel. -/
def gMean (pixels : List Pixel) : ℚ := ((pixels.map (fun p => p.2.1)).sum : ℚ) / (pixels.length : ℚ)

/-- Mean of the blue channel. -/
def bMean (pixels : List Pixel) : ℚ := ((pixels.map (fun p => p.2.2)).sum : ℚ) / (pixels.length : ℚ)

/-- The color-temperature estimate of `LightingService.analyze_lighting`
(`services/lighting.py` lines 62–95): the `(color_temp,
temp_kelvin_approx)` pair derived from the red/blue channel-mean ratio.
The luminance-statistics part of the same function (lines 27–60) is
independent of this branch and is not consulted by it. -/
def lighting_color_temperature (pixels : List Pixel) : String × ℕ :=
  let r_mean := rMean pixels
  let b_mean := bMean pixels
  if r_mean > 0 ∧ b_mean > 0 then
    let rb_ratio := r_mean / b_mean
    if rb_ratio > 13/10 then ("quente", 3000)
    else if rb_ratio > 11/10 then ("neutra_quente", 4000)
    else if rb_ratio > 9/10 then ("neutra", 5000)
    else ("fria", 6500)
  else ("indefinido", 0)

/-- One detected object as consumed by the orchestrator and narrative
heuristic. -/
structure DetObj where
  name : String
  confidence : ℚ
deriving DecidableEq

/-- The fields of the emotion-service result dict the pipeline reads. -/
structure EmotionResult where
  faces_detected : ℕ
  scene_emotion : String
  average_confidence : ℚ
deriving DecidableEq

/-- The dict returned by `OCRService.extract_text`
(`services/ocr.py` lines 136–141). -/
structure OcrResult where
  full_text : String
  segments : List TextSeg
  total_segments : ℕ
  method_used : String
deriving DecidableEq

/-- `urgency_keywords` (`services/narrative.py` line 42). -/
def urgency_keywords : List String :=
  ["agora", "urgente", "limitado", "últimas", "restam", "aproveite", "corra", "rápido"]

/-- `time_objects` (`services/narrative.py` line 46). -/
def time_objects : List String := ["clock", "watch", "timer", "hourglass"]

/-- The dict returned by `NarrativeService.analyze_narrative`
(`services/narrative.py` lines 86–101).  `scarcity_text_keywords` and
`scarcity_time_symbols` are the two lists of the nested
`scarcity_elements` dict; `incongruence_explanation` is `none` where the
Python dict stores `None`. -/
structure NarrativeResult where
  implicit_story : String
  story_meaning : String
  narrative_elements : List String
  scarcity_trigger_detected : Bool
  scarcity_text_keywords : List String
  scarcity_time_symbols : List String
  incongruence_detected : Bool
  incongruence_explanation : Option String
  surprise_level : String
  surprise_score : ℚ
  narrative_coherence : String
  explicacao : String
deriving DecidableEq

/-- `services/narrative.py`, `NarrativeService.analyze_narrative`
(lines 11–106).  The unused `image` parameter is dropped; the
person-and-car `elif` (lines 71–73) has a `pass` body and a condition
that is never true, so it contributes nothing; the `except` fallback is
unreachable for well-typed inputs.  Note the Python operator precedence
on line 38: `(sad ∧ dark) ∨ neutral`.  The `elif` chain appends at most
one narrative element. -/
def analyze_narrative (objects : List DetObj) (emotions : EmotionResult)
    (text : OcrResult) (colors : ColorReport) : NarrativeResult :=
  let object_names := objects.map (fun o => o.name)
  let emotion := emotions.scene_emotion
  let text_content := strLower text.full_text
  let color_palette := colors.emotion_palette
  let narrative_elements : List String :=
    if emotion = "happy" ∧ strContains color_palette "warm" then
      ["coerencia_emocional_positiva"]
    else if (emotion = "sad" ∧ strContains color_palette "dark")
        ∨ strContains color_palette "neutral" then
      ["coerencia_emocional_neutra"]
    else []
  let scarcity_detected := urgency_keywords.any (fun keyword => strContains text_content keyword)
  let has_time_symbols := time_objects.any (fun obj => object_names.contains obj)
  let story_pair :=
    if object_names.contains "person" ∧ emotion = "happy" then
      ("pessoa_feliz", "imagem transmite felicidade e conexão humana")
    else if object_names.length > 3 then
      ("cena_complexa", "múltiplos elementos criam narrativa rica e envolvente")
    else if scarcity_detected || has_time_symbols then
      ("urgencia_acao", "elementos de urgência despertam ação imediata")
    else
      ("narrativa_simples", "narrativa direta e clara")
  let incongruence_detected : Bool := emotion == "happy" && strContains color_palette "dark"
  let surprise_score : ℚ :=
    if incongruence_detected then 7/10
    else if scarcity_detected then 1/2
    else if object_names.length > 5 then 3/10
    else 0
  let surprise_level :=
    if surprise_score > 6/10 then "alto"
    else if surprise_score > 3/10 then "moderado"
    else "baixo"
  { implicit_story := story_pair.1
    story_meaning := story_pair.2
    narrative_elements := narrative_elements
    scarcity_trigger_detected := scarcity_detected || has_time_symbols
    scarcity_text_keywords := urgency_keywords.filter (fun kw => strContains text_content kw)
    scarcity_time_symbols := object_names.filter (fun obj => time_objects.contains obj)
    incongruence_detected := incongruence_detected
    incongruence_explanation :=
      if incongruence_detected then
        some "Contraste entre emoção positiva e paleta escura cria interesse"
      else none
    surprise_level := surprise_level
    surprise_score := round2 surprise_score
    narrative_coherence := if narrative_elements.length > 0 then "alta" else "moderada"
    explicacao :=
      "Narrativa implícita: " ++ story_pair.2 ++ ". "
        ++ (if scarcity_detected || has_time_symbols then
              "Elementos de escassez detectados despertam ação imediata. " else "")
        ++ (if incongruence_detected then
              "Contraste visual cria interesse e quebra expectativas. " else "")
        ++ "Em neuromarketing, narrativas coerentes aumentam engajamento, enquanto elementos de surpresa liberam dopamina e criam memorabilidade." }

/-- A saliency map: the rectangular `uint8` grid (rows of equal length)
produced by `calculate_saliency_map`. -/
abbrev Grid : Type := List (List ℕ)

/-- The `focus_center` sub-dict (`services/saliency.py` lines 181–186). -/
structure FocusCenter where
  x : ℚ
  y : ℚ
  normalized_x : ℚ
  normalized_y : ℚ
deriving DecidableEq

/-- The dict returned by `analyze_attention_distribution`. -/
structure AttnResult where
  attention_score : ℚ
  focus_center : FocusCenter
  rule_of_thirds_alignment : String
  primary_focus_zone : String
deriving DecidableEq

/-- `SaliencyService._empty_attention_result`
(`services/saliency.py` lines 26–37). -/
def empty_attention_result : AttnResult :=
  { attention_score := 0
    focus_center := { x := 0, y := 0, normalized_x := 0, normalized_y := 0 }
    rule_of_thirds_alignment := "unknown"
    primary_focus_zone := "unknown" }

/-- `np.sum(saliency_map)`. -/
def gridTotal (g : Grid) : ℕ := (g.map (fun row => row.sum)).sum

/-- `np.sum(x_coords * saliency_map)`: each cell weighted by its column
index. -/
def gridWeightedX (g : Grid) : ℕ :=
  (g.map (fun row => ((row.enum).map (fun jv => jv.1 * jv.2)).sum)).sum

/-- `np.sum(y_coords * saliency_map)`: each cell weighted by its row
index. -/
def gridWeightedY (g : Grid) : ℕ :=
  ((g.enum).map (fun irow => irow.1 * irow.2.sum)).sum

/-- Number of rows (`saliency_map.shape[0]`). -/
def gridHeight (g : Grid) : ℕ := g.length

/-- Number of columns (`saliency_map.shape[1]` of a rectangular array). -/
def gridWidth (g : Grid) : ℕ := (g.headD []).length

/-- The `f"{zone:.1f}"` formatting of a rule-of-thirds zone: the zone is
always `1/3` or `2/3`, which Python formats as `"0.3"` and `"0.7"`. -/
def zoneStr (z : ℚ) : String := if z = 1/3 then "0.3" else "0.7"

/-- `services/saliency.py`, `SaliencyService.analyze_attention_distribution`
(lines 138–192).  The cv2/numpy saliency-map computation
(`calculate_saliency_map`, which catches all its own errors and returns
`None` on total failure) enters as the `Option Grid` argument; the
`except` path of this function returns the empty result, which for a
well-typed grid is otherwise unreachable.  Python's
`min([1/3, 2/3], key=...)` keeps the first argument on a tie, hence `≤`
in the zone selection. -/
def analyze_attention_distribution (smap : Option Grid) : AttnResult :=
  match smap with
  | none => empty_attention_result
  | some saliency_map =>
    let height := gridHeight saliency_map
    let width := gridWidth saliency_map
    let total_saliency := gridTotal saliency_map
    if total_saliency = 0 then empty_attention_result
    else
      let center_x : ℚ := (gridWeightedX saliency_map : ℚ) / (total_saliency : ℚ)
      let center_y : ℚ := (gridWeightedY saliency_map : ℚ) / (total_saliency : ℚ)
      let normalized_x := center_x / (width : ℚ)
      let normalized_y := center_y / (height : ℚ)
      let x_zone : ℚ := if |normalized_x - 1/3| ≤ |normalized_x - 2/3| then 1/3 else 2/3
      let y_zone : ℚ := if |normalized_y - 1/3| ≤ |normalized_y - 2/3| then 1/3 else 2/3
      let alignment :=
        if |normalized_x - x_zone| < 1/10 ∨ |normalized_y - y_zone| < 1/10 then "aligned"
        else "center"
      let attention_score : ℚ := (total_saliency : ℚ) / ((height * width : ℕ) : ℚ) / 255
      { attention_score := round3 attention_score
        focus_center :=
          { x := round1 center_x
            y := round1 center_y
            normalized_x := round3 normalized_x
            normalized_y := round3 normalized_y }
        rule_of_thirds_alignment := alignment
        primary_focus_zone := alignment ++ "-" ++ zoneStr x_zone ++ "-" ++ zoneStr y_zone }

/-- `cv2.cvtColor(_, cv2.COLOR_RGB2GRAY)` per pixel:
`0.299·R + 0.587·G + 0.114·B` rounded to the nearest integer (OpenCV's
fixed-point rounding; the half-tie direction differs from Mathlib's
`round` only on exact ties, which no claim exercises). -/
def grayValue (p : Pixel) : ℕ :=
  (round ((299 * (p.1 : ℚ) + 587 * (p.2.1 : ℚ) + 114 * (p.2.2 : ℚ)) / 1000)).toNat

/-- Grayscale view of an image given as rows of pixels. -/
def grayscale (image : List (List Pixel)) : Grid :=
  image.map (fun row => row.map grayValue)

/-- Rational values of a grid, flattened row-major. -/
def gridVals (g : Grid) : List ℚ :=
  (g.map (fun row => row.map (fun n => (n : ℚ)))).flatten

/-- `cv2.matchTemplate(a, b, cv2.TM_CCOEFF_NORMED)[0][0]` for two
equally-sized single-channel arrays: the normalized cross-correlation
coefficient `Σ(a−ā)(b−b̄) / √(Σ(a−ā)²·Σ(b−b̄)²)`. -/
noncomputable def ncc (a b : Grid) : ℝ :=
  let xs := gridVals a
  let ys := gridVals b
  let mx : ℚ := xs.sum / (xs.length : ℚ)
  let my : ℚ := ys.sum / (ys.length : ℚ)
  let num : ℚ := ((xs.zip ys).map (fun p => (p.1 - mx) * (p.2 - my))).sum
  let dx : ℚ := (xs.map (fun x => (x - mx) ^ 2)).sum
  let dy : ℚ := (ys.map (fun y => (y - my) ^ 2)).sum
  (num : ℝ) / Real.sqrt ((dx : ℝ) * (dy : ℝ))

/-- Python's `round(x, 3)` on a real value. -/
noncomputable def roundR3 (x : ℝ) : ℝ := (round (1000 * x) : ℤ) / 1000

/-- The dict returned by `SymmetryService.analyze_symmetry`
(`services/symmetry.py` lines 79–87). -/
structure SymmetryResult where
  symmetry_level : String
  symmetry_score : ℝ
  horizontal_symmetry : ℝ
  vertical_symmetry : ℝ
  dominant_symmetry_type : String
  symmetry_meaning : String
  explicacao : String

/-- `services/symmetry.py`, `SymmetryService.analyze_symmetry`
(lines 13–93).  Halving and mirroring column/row lists reproduce the
numpy slicing and `cv2.flip`; for odd dimensions the source trims both
halves to the smaller width/height, which `take (w / 2)` after the
drop-and-reverse reproduces (for even dimensions the `take` is the
identity).  The `except` fallback is unreachable for well-typed input. -/
noncomputable def analyze_symmetry (image : List (List Pixel)) : SymmetryResult :=
  let gray := grayscale image
  let height := gridHeight gray
  let width := gridWidth gray
  let left_half := gray.map (fun row => row.take (width / 2))
  let right_half_flipped := gray.map (fun row => ((row.drop (width / 2)).reverse).take (width / 2))
  let horizontal_corr := ncc left_half right_half_flipped
  let top_half := gray.take (height / 2)
  let bottom_half_flipped := ((gray.drop (height / 2)).reverse).take (height / 2)
  let vertical_corr := ncc top_half bottom_half_flipped
  let avg_symmetry := (horizontal_corr + vertical_corr) / 2
  let level_pair :=
    if avg_symmetry > 0.85 then
      ("muito_alto", "harmonia visual máxima, transmite confiança e beleza")
    else if avg_symmetry > 0.70 then
      ("alto", "boa harmonia visual, transmite equilíbrio")
    else if avg_symmetry > 0.50 then
      ("moderado", "equilíbrio moderado, composição natural")
    else
      ("baixo", "assimetria proposital pode criar dinamismo")
  let dominant_symmetry :=
    if horizontal_corr > vertical_corr + 0.1 then "horizontal"
    else if vertical_corr > horizontal_corr + 0.1 then "vertical"
    else "ambas"
  { symmetry_level := level_pair.1
    symmetry_score := roundR3 avg_symmetry
    horizontal_symmetry := roundR3 horizontal_corr
    vertical_symmetry := roundR3 vertical_corr
    dominant_symmetry_type := dominant_symmetry
    symmetry_meaning := level_pair.2
    explicacao :=
      "Simetria " ++ level_pair.1 ++ ": " ++ level_pair.2
        ++ ". Em neuromarketing, simetria alta está associada a confiança e beleza percebida, enquanto assimetria controlada pode criar interesse visual." }

/-- The fields of the pose-service result dict the orchestrator reads,
plus the rest of the dict as an opaque payload. -/
structure PoseResult (π : Type) where
  movement_sensation : String
  movement_explanation : String
  payload : π

/-- The per-image results of the services the orchestrator
`analyze_neuromarketing` (`src/app.py` lines 183–354) invokes.  Every
service except object detection guards its whole body with `try/except`
(returning a default/error dict) — those calls are modelled as plain
values of the shape the orchestrator reads.  `detect` models
`detect_sample_model` (`src/app.py` lines 158–178), on whose path there
is no exception handler at all: `Except.error` is an exception escaping
the call (e.g. a failing YOLO model load).  Services whose result the
orchestrator merely forwards are modelled with an opaque payload type
`π`.  `width`/`height` are the PIL `input_image.size` consumed by the
CTA engine. -/
structure NmServices (π : Type) where
  width : ℚ
  height : ℚ
  detect : Except String (List DetObj)
  ocr : OcrResult
  colors : ColorReport
  emotion : EmotionResult
  gaze : π
  pose : PoseResult π
  depth : π
  symmetry : π
  lighting : π
  texture : π
  scene : π
  attention : π
  attentionPoints : List π

/-- The consolidated report dict built by `analyze_neuromarketing`: one
field per key assigned to `results` in `src/app.py` lines 209–352, with
tuple fields collapsing the literal sub-dicts (components in source
order). -/
structure NmReport (π : Type) where
  objetos : List DetObj
  numero_de_pessoas : ℕ
  texto_em_imagem : OcrResult
  cores_dominantes : ColorReport
  emocao_das_cores : String × List ColorEntry
  expressao_emocional : ℕ × String × ℚ × EmotionResult
  direcao_olhar : π
  postura_corporea : PoseResult π
  sensacao_de_movimento : String × String
  contraste_local : ℝ × String
  profundidade_de_campo : π
  simetria_visual : π
  tipo_de_plano : String × String
  iluminacao_emocional : π
  simbolos_sociais : List String × String
  area_de_atencao_visual : π × List π
  textura_sensorial : π
  natureza_vs_tecnologia : π
  gatilho_escassez_visual : Bool × List CtaElem × String
  textos_e_tipografia : String × List TextSeg × String
  efeito_surpresa_ou_ironia : Bool × String × Option String
  historia_implicita : String × String × String

/-- `simbolos_sociais` keyword list (`src/app.py` line 295). -/
def simbolos_sociais_list : List String := ["flag", "cross", "star", "crown", "money", "dollar"]

/-- `src/app.py`, `analyze_neuromarketing` (lines 183–354).  The
orchestrator itself wraps no call in an exception handler: the one
fallible call (`detect_sample_model`, step 1) is sequenced with the
`Except` monad, so an error there aborts the whole function, exactly as
an uncaught Python exception would; all remaining steps are assembled
unconditionally into the fixed report shape.  The CTA and narrative
steps invoke the faithful embeddings of those engines on the upstream
results, mirroring lines 322–323 and 338–340. -/
def analyze_neuromarketing {π : Type} (s : NmServices π) : Except String (NmReport π) := do
  let predict ← s.detect
  let objects_list := predict
  let ocr_result := s.ocr
  let color_result := s.colors
  let emotion_result := s.emotion
  let pose_result := s.pose
  let people_objects := objects_list.filter (fun o => o.name == "person")
  let plano :=
    match people_objects with
    | [] => ("indefinido", "sem pessoas detectadas para determinar enquadramento")
    | p0 :: _ =>
      if people_objects.length = 1 ∧ p0.confidence > 8/10 then
        ("close_up", "close-up transmite intimidade e conexão emocional")
      else if people_objects.length ≤ 2 then
        ("medio", "plano médio transmite contexto e relacionamento")
      else
        ("aberto", "plano aberto transmite status e ambiente")
  let simbolos :=
    (objects_list.filter
      (fun o => simbolos_sociais_list.any (fun simb => strContains (strLower o.name) simb))).map
      (fun o => o.name)
  let text_segments := ocr_result.segments
  let cta_elements := detect_cta_elements s.width s.height text_segments
  let narrative_result := analyze_narrative objects_list emotion_result ocr_result color_result
  pure
    { objetos := objects_list
      numero_de_pessoas := (objects_list.filter (fun o => o.name == "person")).length
      texto_em_imagem := ocr_result
      cores_dominantes := color_result
      emocao_das_cores := (color_result.emotion_palette, color_result.dominant_colors)
      expressao_emocional :=
        (emotion_result.faces_detected, emotion_result.scene_emotion,
          emotion_result.average_confidence, emotion_result)
      direcao_olhar := s.gaze
      postura_corporea := pose_result
      sensacao_de_movimento := (pose_result.movement_sensation, pose_result.movement_explanation)
      contraste_local :=
        (color_result.average_contrast, "Contraste alto guia atenção e cria hierarquia visual")
      profundidade_de_campo := s.depth
      simetria_visual := s.symmetry
      tipo_de_plano := plano
      iluminacao_emocional := s.lighting
      simbolos_sociais :=
        (simbolos,
          if simbolos.isEmpty then "Nenhum símbolo social detectado"
          else "Símbolos sociais despertam pertencimento e status")
      area_de_atencao_visual := (s.attention, s.attentionPoints)
      textura_sensorial := s.texture
      natureza_vs_tecnologia := s.scene
      gatilho_escassez_visual :=
        (!cta_elements.isEmpty, cta_elements,
          if cta_elements.isEmpty then "Nenhum elemento de urgência detectado"
          else "CTAs e elementos de urgência despertam ação imediata")
      textos_e_tipografia :=
        (ocr_result.full_text, text_segments,
          "Textos com verbos de ação reforçam estímulos de neuromarketing")
      efeito_surpresa_ou_ironia :=
        (narrative_result.incongruence_detected, narrative_result.surprise_level,
          narrative_result.incongruence_explanation)
      historia_implicita :=
        (narrative_result.implicit_story, narrative_result.story_meaning,
          narrative_result.narrative_coherence) }

/-! ## Shared lemmas -/

theorem round_mono' {α : Type} [LinearOrderedField α] [FloorRing α] {x y : α} (h : x ≤ y) :
    round x ≤ round y := by
  rw [round_eq, round_eq]
  exact Int.floor_mono (by linarith)

theorem wcag_adjust_nonneg {c : ℝ} (h0 : 0 ≤ c) : 0 ≤ wcag_adjust c := by
  unfold wcag_adjust
  split
  · positivity
  · exact Real.rpow_nonneg (div_nonneg (by linarith) (by norm_num)) _

theorem wcag_adjust_le_one {c : ℝ} (h1 : c ≤ 1) : wcag_adjust c ≤ 1 := by
  unfold wcag_adjust
  split
  · rw [div_le_one (by norm_num)]; linarith
  · exact Real.rpow_le_one (div_nonneg (by linarith) (by norm_num))
      (by rw [div_le_one (by norm_num)]; linarith) (by norm_num)

theorem chan_nonneg (u : Fin 256) : (0:ℝ) ≤ (u : ℝ) / 255 := by positivity

theorem chan_le_one (u : Fin 256) : (u : ℝ) / 255 ≤ 1 := by
  rw [div_le_one (by norm_num)]
  exact_mod_cast Nat.cast_le.mpr (by omega : (u : ℕ) ≤ 255)

theorem get_luminance_nonneg (c : Color256) : 0 ≤ get_luminance c := by
  unfold get_luminance
  have h1 := wcag_adjust_nonneg (chan_nonneg c.1)
  have h2 := wcag_adjust_nonneg (chan_nonneg c.2.1)
  have h3 := wcag_adjust_nonneg (chan_nonneg c.2.2)
  nlinarith

theorem get_luminance_le_one (c : Color256) : get_luminance c ≤ 1 := by
  unfold get_luminance
  have h1 := wcag_adjust_le_one (chan_le_one c.1)
  have h2 := wcag_adjust_le_one (chan_le_one c.2.1)
  have h3 := wcag_adjust_le_one (chan_le_one c.2.2)
  have g1 := wcag_adjust_nonneg (chan_nonneg c.1)
  have g2 := wcag_adjust_nonneg (chan_nonneg c.2.1)
  have g3 := wcag_adjust_nonneg (chan_nonneg c.2.2)
  nlinarith

theorem calculate_contrast_range (x y : Color256) :
    1 ≤ calculate_contrast x y ∧ calculate_contrast x y ≤ 21 := by
  have h1 := get_luminance_nonneg x
  have h2 := get_luminance_le_one x
  have h3 := get_luminance_nonneg y
  have h4 := get_luminance_le_one y
  unfold calculate_contrast roundR2
  set l1 := get_luminance x
  set l2 := get_luminance y
  have hdpos : (0:ℝ) < min l1 l2 + 0.05 := by
    rcases min_cases l1 l2 with ⟨h, _⟩ | ⟨h, _⟩ <;> rw [h] <;> linarith
  have hmaxle : max l1 l2 ≤ 1 := by
    rcases max_cases l1 l2 with ⟨h, _⟩ | ⟨h, _⟩ <;> rw [h] <;> linarith
  have hminmax : min l1 l2 ≤ max l1 l2 := min_le_max
  have hrange : 1 ≤ (max l1 l2 + 0.05) / (min l1 l2 + 0.05) ∧
      (max l1 l2 + 0.05) / (min l1 l2 + 0.05) ≤ 21 := by
    constructor
    · rw [le_div_iff₀ hdpos]; linarith
    · rw [div_le_iff₀ hdpos]
      have : (0:ℝ) ≤ min l1 l2 := by
        rcases min_cases l1 l2 with ⟨h, _⟩ | ⟨h, _⟩ <;> rw [h] <;> linarith
      linarith
  constructor
  · have h100 : (100:ℤ) ≤ round (100 * ((max l1 l2 + 0.05) / (min l1 l2 + 0.05))) := by
      have := round_mono'
        (by linarith [hrange.1] : (100:ℝ) ≤ 100 * ((max l1 l2 + 0.05) / (min l1 l2 + 0.05)))
      simpa using this
    rw [le_div_iff₀ (by norm_num : (0:ℝ) < 100)]
    exact_mod_cast (by linarith :
      (100:ℤ) ≤ round (100 * ((max l1 l2 + 0.05) / (min l1 l2 + 0.05))))
  · have h2100 : round (100 * ((max l1 l2 + 0.05) / (min l1 l2 + 0.05))) ≤ (2100:ℤ) := by
      have := round_mono'
        (by linarith [hrange.2] : 100 * ((max l1 l2 + 0.05) / (min l1 l2 + 0.05)) ≤ (2100:ℝ))
      simpa using this
    rw [div_le_iff₀ (by norm_num : (0:ℝ) < 100)]
    calc ((round (100 * ((max l1 l2 + 0.05) / (min l1 l2 + 0.05))) : ℤ) : ℝ)
        ≤ (2100:ℝ) := by exact_mod_cast h2100
      _ = 21 * 100 := by norm_num

/-! ## Claim theorems -/

/-- Claim C2: for every pair of RGB colors `a`, `b` (byte channels),
`calculate_contrast` is symmetric, its value always lies in `[1, 21]`,
and the contrast of any color against itself is exactly 1. -/
theorem claim_C2_contrast_symm_range_refl :
    ∀ a b c : Color256,
      calculate_contrast a b = calculate_contrast b a ∧
      1 ≤ calculate_contrast a b ∧
      calculate_contrast a b ≤ 21 ∧
      calculate_contrast c c = 1 := by
  intro a b c
  refine ⟨?_, (calculate_contrast_range a b).1, (calculate_contrast_range a b).2, ?_⟩
  · unfold calculate_contrast
    dsimp only
    rw [max_comm, min_comm]
  · have h1 := get_luminance_nonneg c
    unfold calculate_contrast roundR2
    dsimp only
    set l := get_luminance c
    rw [max_self, min_self, div_self (by positivity : l + (0.05:ℝ) ≠ 0)]
    norm_num

theorem floor_shift_eq {h : ℚ} (z : ℤ) (hlo : (z:ℚ) * 360 ≤ h * 360 + 30)
    (hhi : h * 360 + 30 < (z:ℚ) * 360 + 360) : ⌊(h * 360 + 30) / 360⌋ = z := by
  rw [Int.floor_eq_iff]
  constructor
  · rw [le_div_iff₀ (by norm_num : (0:ℚ) < 360)]; linarith
  · rw [div_lt_iff₀ (by norm_num : (0:ℚ) < 360)]; linarith

theorem floor_band_eq {w : ℚ} (z : ℤ) (hlo : (z:ℚ) * 60 ≤ w) (hhi : w < (z:ℚ) * 60 + 60) :
    ⌊w / 60⌋ = z := by
  rw [Int.floor_eq_iff]
  constructor
  · rw [le_div_iff₀ (by norm_num : (0:ℚ) < 60)]; linarith
  · rw [div_lt_iff₀ (by norm_num : (0:ℚ) < 60)]; linarith

/-- Claim C4: for every HSV triple with `h ∈ [0,1]`, the color emotion
classifier applies its rules in priority order with first match winning
(`v<0.3` dark, then `v>0.8 ∧ s<0.3` light, then `s<0.3` neutral), and
otherwise buckets the hue in degrees into the 60-degree bands starting
at 0° — warm-energetic, cheerful, fresh, calm, trustworthy, creative —
wrapping at 330°, as captured by the arithmetic spec formulation
`classifyColorEmotionSpec`. -/
theorem claim_C4_classify_emotion_matches_spec (h s v : ℚ) (h0 : 0 ≤ h) (h1 : h ≤ 1) :
    classify_color_emotion h s v = classifyColorEmotionSpec h s v := by
  unfold classify_color_emotion classifyColorEmotionSpec
  dsimp only
  have hd0 : 0 ≤ h * 360 := by linarith
  have hd1 : h * 360 ≤ 360 := by linarith
  split_ifs with c1 c2 c3 c4 c5 c6 c7 c8 c9 <;> try rfl
  · rcases c4 with ⟨_, hlt⟩ | hge
    · rw [floor_shift_eq 0 (by push_cast; linarith) (by push_cast; linarith)]
      rw [show h * 360 + 30 - 360 * ((0:ℤ):ℚ) = h * 360 + 30 by push_cast; ring]
      rw [floor_band_eq 0 (by push_cast; linarith) (by push_cast; linarith)]
      rfl
    · rw [floor_shift_eq 1 (by push_cast; linarith) (by push_cast; linarith)]
      rw [show h * 360 + 30 - 360 * ((1:ℤ):ℚ) = h * 360 - 330 by push_cast; ring]
      rw [floor_band_eq 0 (by push_cast; linarith) (by push_cast; linarith)]
      rfl
  · rcases c5 with ⟨hlo, hhi⟩
    rw [floor_shift_eq 0 (by push_cast; linarith) (by push_cast; linarith)]
    rw [show h * 360 + 30 - 360 * ((0:ℤ):ℚ) = h * 360 + 30 by push_cast; ring]
    rw [floor_band_eq 1 (by push_cast; linarith) (by push_cast; linarith)]
    rfl
  · rcases c6 with ⟨hlo, hhi⟩
    rw [floor_shift_eq 0 (by push_cast; linarith) (by push_cast; linarith)]
    rw [show h * 360 + 30 - 360 * ((0:ℤ):ℚ) = h * 360 + 30 by push_cast; ring]
    rw [floor_band_eq 2 (by push_cast; linarith) (by push_cast; linarith)]
    rfl
  · rcases c7 with ⟨hlo, hhi⟩
    rw [floor_shift_eq 0 (by push_cast; linarith) (by push_cast; linarith)]
    rw [show h * 360 + 30 - 360 * ((0:ℤ):ℚ) = h * 360 + 30 by push_cast; ring]
    rw [floor_band_eq 3 (by push_cast; linarith) (by push_cast; linarith)]
    rfl
  · rcases c8 with ⟨hlo, hhi⟩
    rw [floor_shift_eq 0 (by push_cast; linarith) (by push_cast; linarith)]
    rw [show h * 360 + 30 - 360 * ((0:ℤ):ℚ) = h * 360 + 30 by push_cast; ring]
    rw [floor_band_eq 4 (by push_cast; linarith) (by push_cast; linarith)]
    rfl
  · rcases c9 with ⟨hlo, hhi⟩
    rw [floor_shift_eq 0 (by push_cast; linarith) (by push_cast; linarith)]
    rw [show h * 360 + 30 - 360 * ((0:ℤ):ℚ) = h * 360 + 30 by push_cast; ring]
    rw [floor_band_eq 5 (by push_cast; linarith) (by push_cast; linarith)]
    rfl
  · exfalso
    have h330 : h * 360 < 330 := by
      by_contra hge; exact c4 (Or.inr (by linarith))
    have h30 : 30 ≤ h * 360 := by
      by_contra hlt; exact c4 (Or.inl ⟨hd0, by linarith⟩)
    have h90 : 90 ≤ h * 360 := by
      by_contra hlt; exact c5 ⟨h30, by linarith⟩
    have h150 : 150 ≤ h * 360 := by
      by_contra hlt; exact c6 ⟨h90, by linarith⟩
    have h210 : 210 ≤ h * 360 := by
      by_contra hlt; exact c7 ⟨h150, by linarith⟩
    have h270 : 270 ≤ h * 360 := by
      by_contra hlt; exact c8 ⟨h210, by linarith⟩
    exact c9 ⟨h270, h330⟩

/-- Witness for claim C4 at the concrete hue `h = 1/2` (180°, the calm
band), `s = v = 1/2`. -/
theorem claim_C4_witness :
    (0:ℚ) ≤ 1/2 ∧ (1/2:ℚ) ≤ 1 ∧
      classify_color_emotion (1/2) (1/2) (1/2) = classifyColorEmotionSpec (1/2) (1/2) (1/2) :=
  ⟨by norm_num, by norm_num,
    claim_C4_classify_emotion_matches_spec (1/2) (1/2) (1/2) (by norm_num) (by norm_num)⟩

theorem rMean_nonneg (pixels : List Pixel) : 0 ≤ rMean pixels := by
  unfold rMean
  apply div_nonneg _ (by positivity)
  apply List.sum_nonneg
  intro x hx
  obtain ⟨p, -, rfl⟩ := List.mem_map.mp hx
  positivity

theorem bMean_nonneg (pixels : List Pixel) : 0 ≤ bMean pixels := by
  unfold bMean
  apply div_nonneg _ (by positivity)
  apply List.sum_nonneg
  intro x hx
  obtain ⟨p, -, rfl⟩ := List.mem_map.mp hx
  positivity

/-- Counterexample to claim C6 as stated: on a pure-blue image (every
pixel `(0, 0, 255)`) the blue-channel mean is 255 ≠ 0, so the
red-to-blue ratio is defined (it is 0, which the claim's reading assigns
to `fria`), yet the code returns `indefinido`, because the source also
requires the red mean to be strictly positive. -/
theorem claim_C6_counterexample :
    (lighting_color_temperature [((0:ℕ), (0:ℕ), (255:ℕ))]).1 = "indefinido" ∧
      bMean [((0:ℕ), (0:ℕ), (255:ℕ))] ≠ 0 := by
  constructor
  · simp [lighting_color_temperature, rMean, bMean]
  · norm_num [bMean]

/-- Claim C6 (amended): `analyze_lighting` derives the color-temperature
tier from the red/blue channel-mean ratio — `>1.3` quente, `>1.1`
neutra_quente, `>0.9` neutra, otherwise fria — and the tier is
`indefinido` exactly when the red-channel mean is zero **or** the
blue-channel mean is zero (the source requires both means strictly
positive before forming the ratio, not just a nonzero blue mean). -/
theorem claim_C6_lighting_temperature_amended (pixels : List Pixel) :
    ((lighting_color_temperature pixels).1 = "indefinido" ↔
        rMean pixels = 0 ∨ bMean pixels = 0) ∧
    ((lighting_color_temperature pixels).1 = "quente" ↔
        0 < rMean pixels ∧ 0 < bMean pixels ∧ 13/10 < rMean pixels / bMean pixels) ∧
    ((lighting_color_temperature pixels).1 = "neutra_quente" ↔
        0 < rMean pixels ∧ 0 < bMean pixels ∧ 11/10 < rMean pixels / bMean pixels ∧
          rMean pixels / bMean pixels ≤ 13/10) ∧
    ((lighting_color_temperature pixels).1 = "neutra" ↔
        0 < rMean pixels ∧ 0 < bMean pixels ∧ 9/10 < rMean pixels / bMean pixels ∧
          rMean pixels / bMean pixels ≤ 11/10) ∧
    ((lighting_color_temperature pixels).1 = "fria" ↔
        0 < rMean pixels ∧ 0 < bMean pixels ∧ rMean pixels / bMean pixels ≤ 9/10) := by
  have hr : 0 ≤ rMean pixels := rMean_nonneg pixels
  have hb : 0 ≤ bMean pixels := bMean_nonneg pixels
  unfold lighting_color_temperature
  dsimp only
  split_ifs with hpos h13 h11 h9
  · exact ⟨iff_of_false (by decide) (by rintro (h | h) <;> simp [h] at hpos),
      iff_of_true rfl ⟨hpos.1, hpos.2, h13⟩,
      iff_of_false (by decide) (by rintro ⟨-, -, -, hle⟩; linarith),
      iff_of_false (by decide) (by rintro ⟨-, -, -, hle⟩; linarith),
      iff_of_false (by decide) (by rintro ⟨-, -, hle⟩; linarith)⟩
  · exact ⟨iff_of_false (by decide) (by rintro (h | h) <;> simp [h] at hpos),
      iff_of_false (by decide) (by rintro ⟨-, -, hgt⟩; linarith),
      iff_of_true rfl ⟨hpos.1, hpos.2, h11, by linarith⟩,
      iff_of_false (by decide) (by rintro ⟨-, -, -, hle⟩; linarith),
      iff_of_false (by decide) (by rintro ⟨-, -, hle⟩; linarith)⟩
  · exact ⟨iff_of_false (by decide) (by rintro (h | h) <;> simp [h] at hpos),
      iff_of_false (by decide) (by rintro ⟨-, -, hgt⟩; linarith),
      iff_of_false (by decide) (by rintro ⟨-, -, hgt, -⟩; linarith),
      iff_of_true rfl ⟨hpos.1, hpos.2, h9, by linarith⟩,
      iff_of_false (by decide) (by rintro ⟨-, -, hle⟩; linarith)⟩
  · exact ⟨iff_of_false (by decide) (by rintro (h | h) <;> simp [h] at hpos),
      iff_of_false (by decide) (by rintro ⟨-, -, hgt⟩; linarith),
      iff_of_false (by decide) (by rintro ⟨-, -, hgt, -⟩; linarith),
      iff_of_false (by decide) (by rintro ⟨-, -, hgt, -⟩; linarith),
      iff_of_true rfl ⟨hpos.1, hpos.2, by linarith⟩⟩
  · refine ⟨iff_of_true rfl ?_,
      iff_of_false (by decide) (by rintro ⟨h1, h2, -⟩; exact hpos ⟨h1, h2⟩),
      iff_of_false (by decide) (by rintro ⟨h1, h2, -⟩; exact hpos ⟨h1, h2⟩),
      iff_of_false (by decide) (by rintro ⟨h1, h2, -⟩; exact hpos ⟨h1, h2⟩),
      iff_of_false (by decide) (by rintro ⟨h1, h2, -⟩; exact hpos ⟨h1, h2⟩)⟩
    rcases not_and_or.mp hpos with h | h
    · exact Or.inl (le_antisymm (not_lt.mp h) hr)
    · exact Or.inr (le_antisymm (not_lt.mp h) hb)

/-- Counterexample to claim C7 as stated: a scene whose only object is a
clock (a time-related object), with neutral emotion, empty text and
neutral palette.  Urgency is present in the claim's sense (time-related
object), yet the code sets `surprise_score` to 0, not 0.5, because the
score consults only the text-keyword flag (`scarcity_detected`), never
`has_time_symbols`. -/
theorem claim_C7_counterexample :
    (analyze_narrative [⟨"clock", 9/10⟩] ⟨0, "neutral", 0⟩ ⟨"", [], 0, "easyocr"⟩
        ⟨[], 0, "neutral", 0⟩).surprise_score = 0 ∧
      time_objects.any
        (fun obj => (([⟨"clock", 9/10⟩] : List DetObj).map (fun o => o.name)).contains obj)
          = true ∧
      (0 : ℚ) ≠ 1/2 := by
  refine ⟨?_, by decide, by norm_num⟩
  unfold analyze_narrative
  dsimp only
  rw [show (("neutral" : String) == "happy") = false from by decide]
  rw [show (urgency_keywords.any fun k => strContains (strLower "") k) = false from by decide]
  norm_num [round2, roundTo, round_eq]

/-- Claim C7 (amended): the narrative heuristic sets `surprise_score` to
0.7 on incongruence (emotion "happy" with a "dark" palette tag);
otherwise to 0.5 exactly when an urgency **keyword occurs in the text**
(time-related objects alone do not raise the score, unlike the story
selection); otherwise to 0.3 when more than 5 objects are present;
otherwise to 0.  The surprise tier is `alto` iff the score exceeds 0.6,
`moderado` iff it exceeds 0.3 without exceeding 0.6, else `baixo`. -/
theorem claim_C7_narrative_surprise_amended (objects : List DetObj) (emotions : EmotionResult)
    (text : OcrResult) (colors : ColorReport) :
    ((analyze_narrative objects emotions text colors).surprise_score = 7/10 ↔
        ((emotions.scene_emotion == "happy") && strContains colors.emotion_palette "dark") = true) ∧
    ((analyze_narrative objects emotions text colors).surprise_score = 1/2 ↔
        ((emotions.scene_emotion == "happy") && strContains colors.emotion_palette "dark") = false ∧
          (urgency_keywords.any fun k => strContains (strLower text.full_text) k) = true) ∧
    ((analyze_narrative objects emotions text colors).surprise_score = 3/10 ↔
        ((emotions.scene_emotion == "happy") && strContains colors.emotion_palette "dark") = false ∧
          (urgency_keywords.any fun k => strContains (strLower text.full_text) k) = false ∧
          objects.length > 5) ∧
    ((analyze_narrative objects emotions text colors).surprise_score = 0 ↔
        ((emotions.scene_emotion == "happy") && strContains colors.emotion_palette "dark") = false ∧
          (urgency_keywords.any fun k => strContains (strLower text.full_text) k) = false ∧
          objects.length ≤ 5) ∧
    ((analyze_narrative objects emotions text colors).surprise_level = "alto" ↔
        (analyze_narrative objects emotions text colors).surprise_score = 7/10) ∧
    ((analyze_narrative objects emotions text colors).surprise_level = "moderado" ↔
        (analyze_narrative objects emotions text colors).surprise_score = 1/2) ∧
    ((analyze_narrative objects emotions text colors).surprise_level = "baixo" ↔
        ((analyze_narrative objects emotions text colors).surprise_score = 3/10 ∨
          (analyze_narrative objects emotions text colors).surprise_score = 0)) := by
  unfold analyze_narrative
  dsimp only
  rw [List.length_map]
  cases hi : (emotions.scene_emotion == "happy") && strContains colors.emotion_palette "dark"
  · cases hu : urgency_keywords.any fun k => strContains (strLower text.full_text) k
    · rcases Nat.lt_or_ge 5 objects.length with hn | hn
      · rw [if_pos hn]
        norm_num [round2, roundTo, round_eq]
        exact ⟨hn, by decide, by decide⟩
      · rw [if_neg (by omega : ¬objects.length > 5)]
        norm_num [round2, roundTo, round_eq]
        exact ⟨hn, by decide, by decide⟩
    · norm_num [round2, roundTo, round_eq]
      exact ⟨by decide, by decide⟩
  · norm_num [round2, roundTo, round_eq]
    exact ⟨by decide, by decide⟩

/-- Claim C5: every CTA element detected from a keyword-matching text
segment has `is_strategic_position` true exactly when its (unrounded)
normalized center `(x, y)` satisfies `(x>0.6 ∧ y>0.6) ∨ (0.4<x<0.6 ∧
y>0.7)`, where the center is derived from the element's bounding box and
the image dimensions. -/
theorem claim_C5_cta_strategic_position (image_width image_height : ℚ)
    (segments : List TextSeg) (e : CtaElem)
    (he : e ∈ detect_cta_elements image_width image_height segments) :
    e.is_strategic_position = true ↔
      (((e.bbox.xmin + e.bbox.xmax) / 2 / image_width > 6/10 ∧
          (e.bbox.ymin + e.bbox.ymax) / 2 / image_height > 6/10) ∨
        ((e.bbox.xmin + e.bbox.xmax) / 2 / image_width > 4/10 ∧
          (e.bbox.xmin + e.bbox.xmax) / 2 / image_width < 6/10 ∧
          (e.bbox.ymin + e.bbox.ymax) / 2 / image_height > 7/10)) := by
  unfold detect_cta_elements at he
  obtain ⟨seg, hseg, hmap⟩ := List.mem_filterMap.mp he
  dsimp only at hmap
  split_ifs at hmap
  rw [Option.some_inj] at hmap
  subst hmap
  dsimp only
  simp only [decide_eq_true_eq]


/-- Witness for claim C5: a "Compre Agora" segment whose center is at
normalized (0.8, 0.85) in a 100×100 image is detected with
`is_strategic_position = true` (and the theorem's equivalence holds for
it with its hypotheses discharged); the same text centered at (0.1, 0.1)
gets `is_strategic_position = false`. -/
theorem claim_C5_witness :
    ((⟨"Compre Agora", ["compre", "agora"], ⟨75, 80, 85, 90⟩, ⟨80, 85, 4/5, 17/20⟩, true, 1,
        9/10⟩ : CtaElem) ∈
      detect_cta_elements 100 100
        [⟨"Compre Agora", ⟨75, 80, 85, 90⟩, 9/10⟩, ⟨"Compre Agora", ⟨5, 5, 15, 15⟩, 9/10⟩]) ∧
    ((⟨"Compre Agora", ["compre", "agora"], ⟨5, 5, 15, 15⟩, ⟨10, 10, 1/10, 1/10⟩, false, 1,
        9/10⟩ : CtaElem) ∈
      detect_cta_elements 100 100
        [⟨"Compre Agora", ⟨75, 80, 85, 90⟩, 9/10⟩, ⟨"Compre Agora", ⟨5, 5, 15, 15⟩, 9/10⟩]) ∧
    ((true = true) ↔
      ((((75:ℚ) + 85) / 2 / 100 > 6/10 ∧ ((80:ℚ) + 90) / 2 / 100 > 6/10) ∨
        (((75:ℚ) + 85) / 2 / 100 > 4/10 ∧ ((75:ℚ) + 85) / 2 / 100 < 6/10 ∧
          ((80:ℚ) + 90) / 2 / 100 > 7/10))) := by
  have hk : CTA_KEYWORDS.filter
      (fun k => strContains (strLower "Compre Agora") (strLower k)) = ["compre", "agora"] := by
    decide
  have hdet : detect_cta_elements 100 100
      [⟨"Compre Agora", ⟨75, 80, 85, 90⟩, 9/10⟩, ⟨"Compre Agora", ⟨5, 5, 15, 15⟩, 9/10⟩] =
      [⟨"Compre Agora", ["compre", "agora"], ⟨75, 80, 85, 90⟩, ⟨80, 85, 4/5, 17/20⟩, true, 1,
        9/10⟩,
       ⟨"Compre Agora", ["compre", "agora"], ⟨5, 5, 15, 15⟩, ⟨10, 10, 1/10, 1/10⟩, false, 1,
        9/10⟩] := by
    unfold detect_cta_elements
    simp only [List.filterMap_cons, List.filterMap_nil]
    dsimp only
    rw [hk]
    norm_num [round1, round2, round3, roundTo, round_eq, CtaElem.mk.injEq, CtaPosition.mk.injEq]
  have hmem1 : (⟨"Compre Agora", ["compre", "agora"], ⟨75, 80, 85, 90⟩, ⟨80, 85, 4/5, 17/20⟩,
      true, 1, 9/10⟩ : CtaElem) ∈
      detect_cta_elements 100 100
        [⟨"Compre Agora", ⟨75, 80, 85, 90⟩, 9/10⟩, ⟨"Compre Agora", ⟨5, 5, 15, 15⟩, 9/10⟩] := by
    rw [hdet]; exact List.mem_cons_self _ _
  refine ⟨hmem1, by rw [hdet]; simp, ?_⟩
  exact claim_C5_cta_strategic_position 100 100
    [⟨"Compre Agora", ⟨75, 80, 85, 90⟩, 9/10⟩, ⟨"Compre Agora", ⟨5, 5, 15, 15⟩, 9/10⟩] _ hmem1

theorem roundTo_mono (d : ℕ) {p q : ℚ} (h : p ≤ q) : roundTo d p ≤ roundTo d q := by
  unfold roundTo
  apply div_le_div_of_nonneg_right _ (by positivity)
  · exact_mod_cast round_mono' (by nlinarith [pow_pos (by norm_num : (0:ℚ) < 10) d])

theorem roundTo_zero (d : ℕ) : roundTo d 0 = 0 := by
  simp [roundTo]

theorem roundTo_natCast (d : ℕ) (n : ℕ) : roundTo d (n : ℚ) = n := by
  unfold roundTo
  rw [show ((10:ℚ) ^ d * n) = (((10 ^ d * n : ℕ) : ℤ) : ℚ) by push_cast; ring, round_intCast]
  rw [div_eq_iff (by positivity : ((10:ℚ) ^ d) ≠ 0)]
  push_cast
  ring

theorem roundTo_nonneg (d : ℕ) {q : ℚ} (h : 0 ≤ q) : 0 ≤ roundTo d q := by
  have := roundTo_mono d h
  rwa [roundTo_zero] at this

theorem roundTo_le_one (d : ℕ) {q : ℚ} (h : q ≤ 1) : roundTo d q ≤ 1 := by
  have := roundTo_mono d h
  rwa [show roundTo d 1 = ((1:ℕ):ℚ) from roundTo_natCast d 1] at this

theorem roundTo_le_add (d : ℕ) (q : ℚ) : roundTo d q ≤ q + 1 / (2 * 10 ^ d) := by
  unfold roundTo
  have hpow : (0:ℚ) < 10 ^ d := by positivity
  rw [div_le_iff₀ hpow]
  have h1 : ((round ((10:ℚ) ^ d * q) : ℤ) : ℚ) ≤ (10:ℚ) ^ d * q + 1 / 2 :=
    round_le_add_half _
  calc ((round ((10:ℚ) ^ d * q) : ℤ) : ℚ) ≤ (10:ℚ) ^ d * q + 1 / 2 := h1
    _ = (q + 1 / (2 * 10 ^ d)) * 10 ^ d := by field_simp; ring

theorem sum_map_snd_mul (c : ℕ) (l : List (ℕ × ℕ)) :
    (l.map (fun jv => c * jv.2)).sum = c * (l.map Prod.snd).sum := by
  induction l with
  | nil => simp
  | cons a l ih => simp [ih, Nat.mul_add]

theorem enum_weight_le (l : List ℕ) :
    ((l.enum.map (fun jv => jv.1 * jv.2)).sum) ≤ (l.length - 1) * l.sum := by
  have hle : ((l.enum.map (fun jv => jv.1 * jv.2)).sum) ≤
      ((l.enum.map (fun jv => (l.length - 1) * jv.2)).sum) := by
    apply List.sum_le_sum
    intro jv hjv
    have hx : l[jv.1]? = some jv.2 := List.mem_enum_iff_getElem?.mp hjv
    have hlt : jv.1 < l.length := by
      by_contra hge
      rw [List.getElem?_eq_none (le_of_not_lt hge)] at hx
      exact Option.noConfusion hx
    exact Nat.mul_le_mul_right _ (by omega)
  calc ((l.enum.map (fun jv => jv.1 * jv.2)).sum)
      ≤ ((l.enum.map (fun jv => (l.length - 1) * jv.2)).sum) := hle
    _ = (l.length - 1) * (l.enum.map Prod.snd).sum := sum_map_snd_mul _ _
    _ = (l.length - 1) * l.sum := by rw [List.enum_map_snd]

theorem gridWeightedX_le (g : Grid) (W : ℕ) (hrect : ∀ row ∈ g, row.length = W) :
    gridWeightedX g ≤ (W - 1) * gridTotal g := by
  unfold gridWeightedX gridTotal
  induction g with
  | nil => simp
  | cons row rows ih =>
      simp only [List.map_cons, List.sum_cons]
      have h1 : ((row.enum.map (fun jv => jv.1 * jv.2)).sum) ≤ (W - 1) * row.sum := by
        have h := enum_weight_le row
        rwa [hrect row (List.mem_cons_self _ _)] at h
      have h2 := ih (fun r hr => hrect r (List.mem_cons_of_mem _ hr))
      rw [Nat.mul_add]
      exact Nat.add_le_add h1 h2

theorem gridWeightedY_le (g : Grid) : gridWeightedY g ≤ (g.length - 1) * gridTotal g := by
  have key : gridWeightedY g = (((g.map List.sum).enum).map (fun jv => jv.1 * jv.2)).sum := by
    unfold gridWeightedY
    rw [List.enum_map, List.map_map]
    rfl
  rw [key]
  have h := enum_weight_le (g.map List.sum)
  rw [List.length_map] at h
  exact h

/-- Claim C8: `analyze_attention_distribution` never errors — when the
saliency computation fails (`none`) or the map is all zeros it returns
the defined empty result (`attention_score` 0, zero focus center,
alignment "unknown"); and on any rectangular nonzero map the stored
normalized focus-center coordinates lie within `[0,1] × [0,1]`. -/
theorem claim_C8_attention_distribution (g : Grid) (W : ℕ)
    (hrect : ∀ row ∈ g, row.length = W) :
    analyze_attention_distribution none = empty_attention_result ∧
    (gridTotal g = 0 → analyze_attention_distribution (some g) = empty_attention_result) ∧
    (gridTotal g ≠ 0 →
      0 ≤ (analyze_attention_distribution (some g)).focus_center.normalized_x ∧
        (analyze_attention_distribution (some g)).focus_center.normalized_x ≤ 1 ∧
        0 ≤ (analyze_attention_distribution (some g)).focus_center.normalized_y ∧
        (analyze_attention_distribution (some g)).focus_center.normalized_y ≤ 1) := by
  refine ⟨rfl, ?_, ?_⟩
  · intro h0
    unfold analyze_attention_distribution
    dsimp only
    rw [if_pos h0]
  · intro hne
    have hgne : g ≠ [] := by rintro rfl; exact hne rfl
    have hW : gridWidth g = W := by
      obtain ⟨row, rows, rfl⟩ := List.exists_cons_of_ne_nil hgne
      unfold gridWidth
      simp [hrect row (List.mem_cons_self _ _)]
    have hWpos : 0 < W := by
      by_contra h0
      apply hne
      unfold gridTotal
      apply List.sum_eq_zero
      intro x hx
      obtain ⟨row, hrow, rfl⟩ := List.mem_map.mp hx
      have hrow0 : row = [] := List.length_eq_zero.mp (by rw [hrect row hrow]; omega)
      rw [hrow0]
      rfl
    have hHpos : 0 < g.length := List.length_pos.mpr hgne
    have hTpos : (0:ℚ) < (gridTotal g : ℚ) := by
      exact_mod_cast Nat.pos_of_ne_zero hne
    unfold analyze_attention_distribution
    dsimp only
    rw [if_neg hne]
    dsimp only
    rw [hW]
    have hxval : (0:ℚ) ≤ (gridWeightedX g : ℚ) / (gridTotal g : ℚ) / (W : ℚ) := by positivity
    have hyval : (0:ℚ) ≤ (gridWeightedY g : ℚ) / (gridTotal g : ℚ) / (gridHeight g : ℚ) := by
      positivity
    have hxle : (gridWeightedX g : ℚ) / (gridTotal g : ℚ) / (W : ℚ) ≤ 1 := by
      rw [div_le_one (by exact_mod_cast hWpos : (0:ℚ) < (W:ℚ)),
        div_le_iff₀ hTpos]
      calc (gridWeightedX g : ℚ) ≤ (((W - 1) * gridTotal g : ℕ) : ℚ) := by
            exact_mod_cast gridWeightedX_le g W hrect
        _ ≤ (W : ℚ) * (gridTotal g : ℚ) := by
            push_cast
            have h1 : ((W - 1 : ℕ) : ℚ) ≤ (W : ℚ) := by
              exact_mod_cast Nat.cast_le.mpr (Nat.sub_le W 1)
            nlinarith
    have hyle : (gridWeightedY g : ℚ) / (gridTotal g : ℚ) / (gridHeight g : ℚ) ≤ 1 := by
      rw [div_le_one (by exact_mod_cast hHpos : (0:ℚ) < (gridHeight g : ℚ)),
        div_le_iff₀ hTpos]
      calc (gridWeightedY g : ℚ) ≤ (((g.length - 1) * gridTotal g : ℕ) : ℚ) := by
            exact_mod_cast gridWeightedY_le g
        _ ≤ (gridHeight g : ℚ) * (gridTotal g : ℚ) := by
            push_cast
            have h1 : ((g.length - 1 : ℕ) : ℚ) ≤ (g.length : ℚ) := by
              exact_mod_cast Nat.cast_le.mpr (Nat.sub_le g.length 1)
            unfold gridHeight
            nlinarith
    exact ⟨roundTo_nonneg 3 hxval, roundTo_le_one 3 hxle,
      roundTo_nonneg 3 hyval, roundTo_le_one 3 hyle⟩

/-- Witness for claim C8 on the concrete rectangular map
`[[0,1],[2,3]]` (total 6 ≠ 0): the rectangularity hypothesis holds with
width 2 and the stored normalized focus center lies in `[0,1]²`. -/
theorem claim_C8_witness :
    (∀ row ∈ [[(0:ℕ),1],[2,3]], row.length = 2) ∧ gridTotal [[(0:ℕ),1],[2,3]] ≠ 0 ∧
      (0 ≤ (analyze_attention_distribution (some [[(0:ℕ),1],[2,3]])).focus_center.normalized_x ∧
        (analyze_attention_distribution (some [[(0:ℕ),1],[2,3]])).focus_center.normalized_x ≤ 1 ∧
        0 ≤ (analyze_attention_distribution (some [[(0:ℕ),1],[2,3]])).focus_center.normalized_y ∧
        (analyze_attention_distribution (some [[(0:ℕ),1],[2,3]])).focus_center.normalized_y ≤ 1) :=
  ⟨by decide, by decide,
    (claim_C8_attention_distribution [[(0:ℕ),1],[2,3]] 2 (by decide)).2.2 (by decide)⟩

/-- Claim C9: each engine is a pure, deterministic function of the image
content alone, so two calls on the identical immutable image yield
identical output.  The embeddings of `analyze_symmetry` and
`analyze_image_colors` are functions of the pixel content only — the
source service classes (`SymmetryService`, `ColorAnalysisService`) hold
no mutable state, read no ambient input and use no randomness — so a
second call on equal content returns an equal (byte-identical) result,
which is the congruence stated here. -/
theorem claim_C9_engines_pure (img1 img2 : List (List Pixel)) (px1 px2 : List Pixel) (n : ℕ)
    (himg : img1 = img2) (hpx : px1 = px2) :
    analyze_symmetry img1 = analyze_symmetry img2 ∧
      analyze_image_colors px1 n = analyze_image_colors px2 n :=
  ⟨by rw [himg], by rw [hpx]⟩

/-- Witness for claim C9 at a concrete 1×1 black image. -/
theorem claim_C9_witness :
    ([[((0:ℕ), (0:ℕ), (0:ℕ))]] : List (List Pixel)) = [[((0:ℕ), (0:ℕ), (0:ℕ))]] ∧
      ([((0:ℕ), (0:ℕ), (0:ℕ))] : List Pixel) = [((0:ℕ), (0:ℕ), (0:ℕ))] ∧
      analyze_symmetry [[((0:ℕ), (0:ℕ), (0:ℕ))]] = analyze_symmetry [[((0:ℕ), (0:ℕ), (0:ℕ))]] ∧
      analyze_image_colors [((0:ℕ), (0:ℕ), (0:ℕ))] 5 =
        analyze_image_colors [((0:ℕ), (0:ℕ), (0:ℕ))] 5 :=
  ⟨rfl, rfl,
    (claim_C9_engines_pure [[((0:ℕ), (0:ℕ), (0:ℕ))]] [[((0:ℕ), (0:ℕ), (0:ℕ))]]
      [((0:ℕ), (0:ℕ), (0:ℕ))] [((0:ℕ), (0:ℕ), (0:ℕ))] 5 rfl rfl).1,
    (claim_C9_engines_pure [[((0:ℕ), (0:ℕ), (0:ℕ))]] [[((0:ℕ), (0:ℕ), (0:ℕ))]]
      [((0:ℕ), (0:ℕ), (0:ℕ))] [((0:ℕ), (0:ℕ), (0:ℕ))] 5 rfl rfl).2⟩

theorem mem_insertByCount {α : Type} (x : α × ℕ) (l : List (α × ℕ)) (y : α × ℕ)
    (hy : y ∈ insertByCount x l) : y = x ∨ y ∈ l := by
  induction l with
  | nil => exact Or.inl (by simpa [insertByCount] using hy)
  | cons z l ih =>
      unfold insertByCount at hy
      split_ifs at hy
      · rcases List.mem_cons.mp hy with rfl | hy'
        · exact Or.inr (List.mem_cons_self _ _)
        · rcases ih hy' with h | h
          · exact Or.inl h
          · exact Or.inr (List.mem_cons_of_mem _ h)
      · rcases List.mem_cons.mp hy with rfl | hy'
        · exact Or.inl rfl
        · exact Or.inr hy'

theorem mem_sortByCountDesc {α : Type} (l : List (α × ℕ)) (y : α × ℕ)
    (hy : y ∈ sortByCountDesc l) : y ∈ l := by
  induction l with
  | nil => simp [sortByCountDesc] at hy
  | cons x l ih =>
      unfold sortByCountDesc at hy
      rcases mem_insertByCount x (sortByCountDesc l) y hy with rfl | h
      · exact List.mem_cons_self _ _
      · exact List.mem_cons_of_mem _ (ih h)

theorem mem_uniqueFirst {α : Type} [DecidableEq α] :
    ∀ (l : List α), ∀ y ∈ uniqueFirst l, y ∈ l
  | [] => by simp [uniqueFirst]
  | a :: l => by
      intro y hy
      rw [uniqueFirst] at hy
      rcases List.mem_cons.mp hy with rfl | hy'
      · exact List.mem_cons_self _ _
      · exact List.mem_cons_of_mem _
          (List.mem_of_mem_filter (mem_uniqueFirst (l.filter (fun x => x ≠ a)) y hy'))
  termination_by l => l.length
  decreasing_by exact Nat.lt_succ_of_le (List.length_filter_le _ _)

theorem most_common_mem {α : Type} [DecidableEq α] [BEq α] {n : ℕ} {l : List α} {ck : α × ℕ}
    (h : ck ∈ most_common n l) : ck.1 ∈ l ∧ ck.2 = l.count ck.1 := by
  unfold most_common at h
  have h1 : ck ∈ sortByCountDesc ((uniqueFirst l).map fun c => (c, l.count c)) :=
    List.mem_of_mem_take h
  have h2 : ck ∈ (uniqueFirst l).map (fun c => (c, l.count c)) :=
    mem_sortByCountDesc _ _ h1
  obtain ⟨c, hc, rfl⟩ := List.mem_map.mp h2
  exact ⟨mem_uniqueFirst l c hc, rfl⟩

/-- Claim C10: for byte-valued input pixels, every color returned by
`extract_dominant_colors` has each RGB channel a multiple of 32 in
`{0, 32, …, 224}` — a consequence of the `(pixels // 32) * 32`
quantization — so pure white `(255, 255, 255)` is never reported as a
dominant color's RGB, and the stored hex string is derived from the
quantized values. -/
theorem claim_C10_quantized_channels (pixels : List Pixel) (n_colors : ℕ) (e : ColorEntry)
    (hpx : ∀ p ∈ pixels, p.1 ≤ 255 ∧ p.2.1 ≤ 255 ∧ p.2.2 ≤ 255)
    (he : e ∈ extract_dominant_colors pixels n_colors) :
    (e.rgb.1 % 32 = 0 ∧ e.rgb.1 ≤ 224) ∧
      (e.rgb.2.1 % 32 = 0 ∧ e.rgb.2.1 ≤ 224) ∧
      (e.rgb.2.2 % 32 = 0 ∧ e.rgb.2.2 ≤ 224) ∧
      e.rgb ≠ ((255:ℕ), (255:ℕ), (255:ℕ)) ∧
      e.hex = rgbToHex e.rgb := by
  unfold extract_dominant_colors at he
  obtain ⟨ck, hck, rfl⟩ := List.mem_map.mp he
  have h1 : ck.1 ∈ pixels.map quantizePixel := (most_common_mem hck).1
  obtain ⟨p, hp, hq⟩ := List.mem_map.mp h1
  dsimp only
  rw [← hq]
  obtain ⟨hb1, hb2, hb3⟩ := hpx p hp
  have hch : ∀ c : ℕ, c ≤ 255 → (c / 32 * 32) % 32 = 0 ∧ c / 32 * 32 ≤ 224 := by
    intro c hc
    constructor
    · exact Nat.mul_mod_left _ _
    · have : c / 32 ≤ 7 := by
        calc c / 32 ≤ 255 / 32 := Nat.div_le_div_right hc
          _ = 7 := by norm_num
      omega
  refine ⟨hch p.1 hb1, hch p.2.1 hb2, hch p.2.2 hb3, ?_, rfl⟩
  intro hwhite
  have : p.1 / 32 * 32 = 255 := congrArg (fun t => t.1) hwhite
  have h224 := (hch p.1 hb1).2
  omega

/-- Witness for claim C10 at the single-pixel pure-white image: the one
dominant color returned is the quantized `(224, 224, 224)` with hex
`#e0e0e0`, and the theorem's conclusion holds for it. -/
theorem claim_C10_witness :
    (∀ p ∈ [((255:ℕ), (255:ℕ), (255:ℕ))], p.1 ≤ 255 ∧ p.2.1 ≤ 255 ∧ p.2.2 ≤ 255) ∧
    ((⟨((224:ℕ), (224:ℕ), (224:ℕ)), "#e0e0e0", 100, (0, 0, 439/5), "light"⟩ : ColorEntry) ∈
        extract_dominant_colors [((255:ℕ), (255:ℕ), (255:ℕ))] 5) ∧
    ((((224:ℕ), (224:ℕ), (224:ℕ)) : Pixel).1 % 32 = 0 ∧
        (((224:ℕ), (224:ℕ), (224:ℕ)) : Pixel).1 ≤ 224) ∧
      ((((224:ℕ), (224:ℕ), (224:ℕ)) : Pixel).2.1 % 32 = 0 ∧
        (((224:ℕ), (224:ℕ), (224:ℕ)) : Pixel).2.1 ≤ 224) ∧
      ((((224:ℕ), (224:ℕ), (224:ℕ)) : Pixel).2.2 % 32 = 0 ∧
        (((224:ℕ), (224:ℕ), (224:ℕ)) : Pixel).2.2 ≤ 224) ∧
      (((224:ℕ), (224:ℕ), (224:ℕ)) : Pixel) ≠ ((255:ℕ), (255:ℕ), (255:ℕ)) ∧
      "#e0e0e0" = rgbToHex ((224:ℕ), (224:ℕ), (224:ℕ)) := by
  have hpx : ∀ p ∈ [((255:ℕ), (255:ℕ), (255:ℕ))],
      p.1 ≤ 255 ∧ p.2.1 ≤ 255 ∧ p.2.2 ≤ 255 := by decide
  have hhex : rgbToHex ((224:ℕ), (224:ℕ), (224:ℕ)) = "#e0e0e0" := by decide
  have hq : quantizePixel ((255:ℕ), (255:ℕ), (255:ℕ)) = ((224:ℕ), (224:ℕ), (224:ℕ)) := by decide
  have hval : extract_dominant_colors [((255:ℕ), (255:ℕ), (255:ℕ))] 5 =
      [⟨((224:ℕ), (224:ℕ), (224:ℕ)), "#e0e0e0", 100, (0, 0, 439/5), "light"⟩] := by
    unfold extract_dominant_colors most_common
    simp only [List.map_cons, List.map_nil, List.length_cons, List.length_nil, hq]
    rw [show uniqueFirst [((224:ℕ), (224:ℕ), (224:ℕ))] = [((224:ℕ), (224:ℕ), (224:ℕ))] by
      rw [uniqueFirst]
      simp [uniqueFirst]]
    simp only [List.map_cons, List.map_nil, sortByCountDesc, insertByCount, List.take,
      List.count_cons, List.count_nil]
    norm_num [rgb_to_hsv, classify_color_emotion, round1, round2, roundTo, round_eq,
      ColorEntry.mk.injEq, hhex, beq_iff_eq]
  have hmem : (⟨((224:ℕ), (224:ℕ), (224:ℕ)), "#e0e0e0", 100, (0, 0, 439/5), "light"⟩ :
      ColorEntry) ∈ extract_dominant_colors [((255:ℕ), (255:ℕ), (255:ℕ))] 5 := by
    rw [hval]
    exact List.mem_singleton_self _
  exact ⟨hpx, hmem, claim_C10_quantized_channels [((255:ℕ), (255:ℕ), (255:ℕ))] 5 _ hpx hmem⟩

theorem count_add_filter_length {α : Type} [DecidableEq α] [BEq α] [LawfulBEq α] (a : α) (l : List α) :
    l.count a + (l.filter (fun x => x ≠ a)).length = l.length := by
  induction l with
  | nil => simp
  | cons b l ih =>
      rw [List.count_cons, List.filter_cons]
      by_cases hb : b = a
      · subst hb
        rw [if_pos (by simp), if_neg (by simp)]
        simp only [List.length_cons]
        omega
      · rw [if_neg (by simp [hb]), if_pos (by simp [hb])]
        simp only [List.length_cons]
        omega

theorem sum_count_nodup_le {α : Type} [DecidableEq α] [BEq α] [LawfulBEq α] :
    ∀ (cs : List α), cs.Nodup → ∀ (l : List α),
      ((cs.map (fun c => l.count c)).sum) ≤ l.length := by
  intro cs
  induction cs with
  | nil => intro _ l; simp
  | cons a cs ih =>
      intro hnd l
      simp only [List.map_cons, List.sum_cons]
      obtain ⟨hna, hnd2⟩ := List.nodup_cons.mp hnd
      have hcongr : cs.map (fun c => l.count c) =
          cs.map (fun c => (l.filter (fun x => x ≠ a)).count c) := by
        apply List.map_congr_left
        intro c hc
        rw [List.count_filter]
        simp [show c ≠ a from fun h => hna (h ▸ hc)]
      rw [hcongr]
      have h1 := ih hnd2 (l.filter (fun x => x ≠ a))
      have h2 := count_add_filter_length a l
      omega

theorem insertByCount_perm {α : Type} (x : α × ℕ) (l : List (α × ℕ)) :
    (insertByCount x l).Perm (x :: l) := by
  induction l with
  | nil => simp [insertByCount]
  | cons y l ih =>
      unfold insertByCount
      split_ifs
      · exact (List.Perm.cons y ih).trans (List.Perm.swap x y l)
      · exact List.Perm.refl _

theorem sortByCountDesc_perm {α : Type} (l : List (α × ℕ)) :
    (sortByCountDesc l).Perm l := by
  induction l with
  | nil => simp [sortByCountDesc]
  | cons x l ih =>
      unfold sortByCountDesc
      exact (insertByCount_perm x (sortByCountDesc l)).trans (List.Perm.cons x ih)

theorem uniqueFirst_nodup {α : Type} [DecidableEq α] : ∀ (l : List α), (uniqueFirst l).Nodup
  | [] => by simp [uniqueFirst]
  | a :: l => by
      rw [uniqueFirst]
      refine List.nodup_cons.mpr ⟨?_, uniqueFirst_nodup (l.filter (fun x => x ≠ a))⟩
      intro hmem
      have := mem_uniqueFirst _ a hmem
      have := List.of_mem_filter this
      simp at this
  termination_by l => l.length
  decreasing_by exact Nat.lt_succ_of_le (List.length_filter_le _ _)

theorem most_common_fst_nodup {α : Type} [DecidableEq α] [BEq α] (n : ℕ) (l : List α) :
    ((most_common n l).map Prod.fst).Nodup := by
  unfold most_common
  have hperm : ((sortByCountDesc ((uniqueFirst l).map fun c => (c, l.count c))).map
      Prod.fst).Perm (((uniqueFirst l).map fun c => (c, l.count c)).map Prod.fst) :=
    (sortByCountDesc_perm _).map Prod.fst
  have hnd : (((uniqueFirst l).map fun c => (c, l.count c)).map Prod.fst).Nodup := by
    rw [List.map_map, show (Prod.fst ∘ fun c => (c, l.count c)) = id from rfl, List.map_id]
    exact uniqueFirst_nodup l
  have hnd2 := (List.Perm.nodup_iff hperm).mpr hnd
  exact hnd2.sublist ((List.take_sublist _ _).map Prod.fst)

theorem sum_map_add_const {α : Type} (l : List α) (f : α → ℚ) (c : ℚ) :
    (l.map (fun x => f x + c)).sum = (l.map f).sum + l.length * c := by
  induction l with
  | nil => simp
  | cons a l ih => simp [ih]; ring

theorem sum_map_div_mul {α : Type} (l : List α) (g : α → ℚ) (T : ℚ) :
    (l.map (fun x => g x / T * 100)).sum = (l.map g).sum / T * 100 := by
  induction l with
  | nil => simp
  | cons a l ih => simp [ih]; ring

theorem most_common_snd_le {α : Type} [DecidableEq α] [BEq α] {n : ℕ} {l : List α} {ck : α × ℕ}
    (h : ck ∈ most_common n l) : ck.2 ≤ l.length := by
  rw [(most_common_mem h).2]
  exact List.count_le_length _ _

theorem most_common_snd_sum_le {α : Type} [DecidableEq α] [BEq α] [LawfulBEq α] (n : ℕ) (l : List α) :
    ((most_common n l).map Prod.snd).sum ≤ l.length := by
  have hmapeq : (most_common n l).map Prod.snd =
      ((most_common n l).map Prod.fst).map (fun c => l.count c) := by
    rw [List.map_map]
    apply List.map_congr_left
    intro ck hck
    show ck.2 = l.count ck.1
    exact (most_common_mem hck).2
  rw [hmapeq]
  exact sum_count_nodup_le _ (most_common_fst_nodup n l) l

/-- Claim C3 (amended): each dominant-color percentage lies in `[0,100]`,
and the sum of the stored (independently rounded) percentage fields is at
most `100 + k/200`, where `k` is the number of returned entries: the
exact pre-rounding percentages sum to at most 100, but `round(·, 2)` can
add up to `1/200` per entry, so the stored sum can exceed 100 by a hair
(see the counterexample), never by more than `k/200`. -/
theorem claim_C3_percentages_amended (pixels : List Pixel) (n_colors : ℕ) :
    (∀ e ∈ extract_dominant_colors pixels n_colors, 0 ≤ e.percentage ∧ e.percentage ≤ 100) ∧
      ((extract_dominant_colors pixels n_colors).map (fun e => e.percentage)).sum ≤
        100 + ((extract_dominant_colors pixels n_colors).length : ℚ) / 200 := by
  rcases eq_or_ne pixels [] with rfl | hnil
  · constructor
    · intro e he
      simp [extract_dominant_colors, most_common, uniqueFirst, sortByCountDesc] at he
    · simp [extract_dominant_colors, most_common, uniqueFirst, sortByCountDesc]
  · have hTpos : (0:ℚ) < (pixels.length : ℚ) := by
      exact_mod_cast List.length_pos.mpr hnil
    have h100 : roundTo 2 (100:ℚ) = 100 := by
      rw [show (100:ℚ) = ((100:ℕ):ℚ) by norm_num, roundTo_natCast]
    constructor
    · intro e he
      unfold extract_dominant_colors at he
      obtain ⟨ck, hck, rfl⟩ := List.mem_map.mp he
      dsimp only
      have hcount : ck.2 ≤ pixels.length := by
        have h1 := most_common_snd_le hck
        rwa [List.length_map] at h1
      have hq0 : (0:ℚ) ≤ (ck.2 : ℚ) / (pixels.length : ℚ) * 100 := by positivity
      have hq1 : (ck.2 : ℚ) / (pixels.length : ℚ) * 100 ≤ 100 := by
        have hd : (ck.2 : ℚ) / (pixels.length : ℚ) ≤ 1 := by
          rw [div_le_one hTpos]
          exact_mod_cast hcount
        nlinarith
      refine ⟨roundTo_nonneg 2 hq0, ?_⟩
      calc round2 ((ck.2 : ℚ) / (pixels.length : ℚ) * 100)
          = roundTo 2 ((ck.2 : ℚ) / (pixels.length : ℚ) * 100) := rfl
        _ ≤ roundTo 2 (100:ℚ) := roundTo_mono 2 hq1
        _ = 100 := h100
    · unfold extract_dominant_colors
      dsimp only
      rw [List.map_map, List.length_map]
      set Q := pixels.map quantizePixel with hQ
      set mc := most_common n_colors Q with hmcdef
      have hNat : (mc.map Prod.snd).sum ≤ pixels.length := by
        have h1 := most_common_snd_sum_le n_colors Q
        rwa [List.length_map] at h1
      have hcast : ((mc.map (fun ck => (ck.2 : ℚ))).sum) ≤ (pixels.length : ℚ) := by
        have hsnd : mc.map (fun ck => (ck.2 : ℚ)) =
            ((mc.map Prod.snd).map (Nat.cast : ℕ → ℚ)) := by
          rw [List.map_map]
          rfl
        rw [hsnd, ← Nat.cast_list_sum]
        exact_mod_cast hNat
      calc (mc.map _).sum
          ≤ (mc.map (fun ck : Pixel × ℕ =>
              (ck.2 : ℚ) / (pixels.length : ℚ) * 100 + 1/200)).sum := by
            apply List.sum_le_sum
            intro ck hck
            show round2 ((ck.2 : ℚ) / (pixels.length : ℚ) * 100) ≤
              (ck.2 : ℚ) / (pixels.length : ℚ) * 100 + 1/200
            calc round2 ((ck.2 : ℚ) / (pixels.length : ℚ) * 100)
                = roundTo 2 ((ck.2 : ℚ) / (pixels.length : ℚ) * 100) := rfl
              _ ≤ (ck.2 : ℚ) / (pixels.length : ℚ) * 100 + 1 / (2 * 10 ^ 2) :=
                  roundTo_le_add 2 _
              _ = (ck.2 : ℚ) / (pixels.length : ℚ) * 100 + 1/200 := by norm_num
        _ = (mc.map (fun ck : Pixel × ℕ =>
              (ck.2 : ℚ) / (pixels.length : ℚ) * 100)).sum + mc.length * (1/200) :=
            sum_map_add_const mc _ _
        _ = ((mc.map (fun ck : Pixel × ℕ => (ck.2 : ℚ))).sum) / (pixels.length : ℚ) * 100 +
              mc.length * (1/200) := by
            rw [sum_map_div_mul]
        _ ≤ 100 + mc.length * (1/200) := by
            have hd : ((mc.map (fun ck : Pixel × ℕ => (ck.2 : ℚ))).sum) /
                (pixels.length : ℚ) ≤ 1 := by
              rw [div_le_one hTpos]
              exact hcast
            nlinarith
        _ = 100 + (mc.length : ℚ) / 200 := by ring

theorem filter_ne_replicate_self {α : Type} [DecidableEq α] (a : α) (m : ℕ) :
    (List.replicate m a).filter (fun x => x ≠ a) = [] := by
  induction m with
  | zero => rfl
  | succ k ih =>
      rw [List.replicate_succ, List.filter_cons, if_neg (by simp)]
      exact ih

theorem filter_ne_replicate_other {α : Type} [DecidableEq α] {a b : α} (h : b ≠ a) (m : ℕ) :
    (List.replicate m b).filter (fun x => x ≠ a) = List.replicate m b := by
  induction m with
  | zero => rfl
  | succ k ih =>
      rw [List.replicate_succ, List.filter_cons, if_pos (by simp [h]), ih,
        ← List.replicate_succ]

theorem uniqueFirst_replicate_append {α : Type} [DecidableEq α] (a : α) (m : ℕ) (hm : m ≠ 0)
    (l : List α) :
    uniqueFirst (List.replicate m a ++ l) = a :: uniqueFirst (l.filter (fun x => x ≠ a)) := by
  obtain ⟨k, rfl⟩ := Nat.exists_eq_succ_of_ne_zero hm
  rw [List.replicate_succ, List.cons_append, uniqueFirst]
  congr 1
  rw [List.filter_append, filter_ne_replicate_self, List.nil_append]

theorem uniqueFirst_replicate {α : Type} [DecidableEq α] (a : α) (m : ℕ) (hm : m ≠ 0) :
    uniqueFirst (List.replicate m a) = [a] := by
  have h := uniqueFirst_replicate_append a m hm []
  rw [List.append_nil] at h
  rw [h]
  simp [uniqueFirst]

/-- Counterexample to claim C3's "sum ≤ 100": a 22500-pixel image (the
exact size of the fixed 150×150 resize) with five quantization-fixed
colors occurring 4508, 4499, 4490, 4481 and 4522 times.  Each exact
percentage `count/225` has fractional part ≥ 5/9 after scaling by 100,
so `round(·, 2)` rounds every entry up and the stored percentages sum to
100.02 > 100. -/
theorem claim_C3_counterexample :
    ((extract_dominant_colors
        (List.replicate 4508 (((0:ℕ), (0:ℕ), (0:ℕ)) : Pixel) ++
          (List.replicate 4499 (((32:ℕ), (0:ℕ), (0:ℕ)) : Pixel) ++
            (List.replicate 4490 (((64:ℕ), (0:ℕ), (0:ℕ)) : Pixel) ++
              (List.replicate 4481 (((96:ℕ), (0:ℕ), (0:ℕ)) : Pixel) ++
                List.replicate 4522 (((128:ℕ), (0:ℕ), (0:ℕ)) : Pixel))))) 5).map
        (fun e => e.percentage)).sum = 5001/50 ∧
      (100:ℚ) < 5001/50 ∧
      (List.replicate 4508 (((0:ℕ), (0:ℕ), (0:ℕ)) : Pixel) ++
          (List.replicate 4499 (((32:ℕ), (0:ℕ), (0:ℕ)) : Pixel) ++
            (List.replicate 4490 (((64:ℕ), (0:ℕ), (0:ℕ)) : Pixel) ++
              (List.replicate 4481 (((96:ℕ), (0:ℕ), (0:ℕ)) : Pixel) ++
                List.replicate 4522 (((128:ℕ), (0:ℕ), (0:ℕ)) : Pixel))))).length = 22500 := by
  set pa : Pixel := ((0:ℕ), (0:ℕ), (0:ℕ)) with hpa
  set pb : Pixel := ((32:ℕ), (0:ℕ), (0:ℕ)) with hpb
  set pc : Pixel := ((64:ℕ), (0:ℕ), (0:ℕ)) with hpc
  set pd : Pixel := ((96:ℕ), (0:ℕ), (0:ℕ)) with hpd
  set pe : Pixel := ((128:ℕ), (0:ℕ), (0:ℕ)) with hpe
  set P : List Pixel := List.replicate 4508 pa ++
    (List.replicate 4499 pb ++
      (List.replicate 4490 pc ++
        (List.replicate 4481 pd ++ List.replicate 4522 pe))) with hP
  have hlen : P.length = 22500 := by
    rw [hP]
    simp only [List.length_append, List.length_replicate]
  have hQ : P.map quantizePixel = P := by
    rw [hP]
    simp only [List.map_append, List.map_replicate]
    rw [show quantizePixel pa = pa from by rw [hpa]; decide,
      show quantizePixel pb = pb from by rw [hpb]; decide,
      show quantizePixel pc = pc from by rw [hpc]; decide,
      show quantizePixel pd = pd from by rw [hpd]; decide,
      show quantizePixel pe = pe from by rw [hpe]; decide]
  have hU : uniqueFirst P = [pa, pb, pc, pd, pe] := by
    rw [hP]
    rw [uniqueFirst_replicate_append pa 4508 (by norm_num)]
    rw [List.filter_append, List.filter_append, List.filter_append]
    rw [filter_ne_replicate_other (show pb ≠ pa from by rw [hpa, hpb]; decide),
      filter_ne_replicate_other (show pc ≠ pa from by rw [hpa, hpc]; decide),
      filter_ne_replicate_other (show pd ≠ pa from by rw [hpa, hpd]; decide),
      filter_ne_replicate_other (show pe ≠ pa from by rw [hpa, hpe]; decide)]
    rw [uniqueFirst_replicate_append pb 4499 (by norm_num)]
    rw [List.filter_append, List.filter_append]
    rw [filter_ne_replicate_other (show pc ≠ pb from by rw [hpb, hpc]; decide),
      filter_ne_replicate_other (show pd ≠ pb from by rw [hpb, hpd]; decide),
      filter_ne_replicate_other (show pe ≠ pb from by rw [hpb, hpe]; decide)]
    rw [uniqueFirst_replicate_append pc 4490 (by norm_num)]
    rw [List.filter_append]
    rw [filter_ne_replicate_other (show pd ≠ pc from by rw [hpc, hpd]; decide),
      filter_ne_replicate_other (show pe ≠ pc from by rw [hpc, hpe]; decide)]
    rw [uniqueFirst_replicate_append pd 4481 (by norm_num)]
    rw [filter_ne_replicate_other (show pe ≠ pd from by rw [hpd, hpe]; decide)]
    rw [uniqueFirst_replicate pe 4522 (by norm_num)]
  have hMC : most_common 5 (P.map quantizePixel) =
      [(pe, 4522), (pa, 4508), (pb, 4499), (pc, 4490), (pd, 4481)] := by
    unfold most_common
    rw [hQ, hU]
    have hz : ∀ (m : ℕ) (x y : Pixel), y ≠ x → (List.replicate m x).count y = 0 := by
      intro m x y hxy
      rw [List.count_eq_zero]
      rw [List.mem_replicate]
      rintro ⟨-, h⟩
      exact hxy h
    have hcnt : ∀ y : Pixel, P.count y =
        (List.replicate 4508 pa).count y + ((List.replicate 4499 pb).count y +
          ((List.replicate 4490 pc).count y + ((List.replicate 4481 pd).count y +
            (List.replicate 4522 pe).count y))) := by
      intro y
      rw [hP, List.count_append, List.count_append, List.count_append, List.count_append]
    have hca : P.count pa = 4508 := by
      rw [hcnt, List.count_replicate_self,
        hz _ pb pa (by rw [hpa, hpb]; decide), hz _ pc pa (by rw [hpa, hpc]; decide),
        hz _ pd pa (by rw [hpa, hpd]; decide), hz _ pe pa (by rw [hpa, hpe]; decide)]
    have hcb : P.count pb = 4499 := by
      rw [hcnt, List.count_replicate_self,
        hz _ pa pb (by rw [hpa, hpb]; decide), hz _ pc pb (by rw [hpb, hpc]; decide),
        hz _ pd pb (by rw [hpb, hpd]; decide), hz _ pe pb (by rw [hpb, hpe]; decide)]
    have hcc : P.count pc = 4490 := by
      rw [hcnt, List.count_replicate_self,
        hz _ pa pc (by rw [hpa, hpc]; decide), hz _ pb pc (by rw [hpb, hpc]; decide),
        hz _ pd pc (by rw [hpc, hpd]; decide), hz _ pe pc (by rw [hpc, hpe]; decide)]
    have hcd : P.count pd = 4481 := by
      rw [hcnt, List.count_replicate_self,
        hz _ pa pd (by rw [hpa, hpd]; decide), hz _ pb pd (by rw [hpb, hpd]; decide),
        hz _ pc pd (by rw [hpc, hpd]; decide), hz _ pe pd (by rw [hpd, hpe]; decide)]
    have hce : P.count pe = 4522 := by
      rw [hcnt, List.count_replicate_self,
        hz _ pa pe (by rw [hpa, hpe]; decide), hz _ pb pe (by rw [hpb, hpe]; decide),
        hz _ pc pe (by rw [hpc, hpe]; decide), hz _ pd pe (by rw [hpd, hpe]; decide)]
    simp only [List.map_cons, List.map_nil, hca, hcb, hcc, hcd, hce]
    rw [hpa, hpb, hpc, hpd, hpe]
    decide
  refine ⟨?_, by norm_num, hlen⟩
  have hext : ((extract_dominant_colors P 5).map (fun e => e.percentage)) =
      [round2 (((4522:ℕ):ℚ) / ((22500:ℕ):ℚ) * 100),
       round2 (((4508:ℕ):ℚ) / ((22500:ℕ):ℚ) * 100),
       round2 (((4499:ℕ):ℚ) / ((22500:ℕ):ℚ) * 100),
       round2 (((4490:ℕ):ℚ) / ((22500:ℕ):ℚ) * 100),
       round2 (((4481:ℕ):ℚ) / ((22500:ℕ):ℚ) * 100)] := by
    unfold extract_dominant_colors
    rw [List.map_map, hMC, hlen]
    rfl
  rw [hext]
  rw [show round2 (((4522:ℕ):ℚ) / ((22500:ℕ):ℚ) * 100) = 201/10 from by
        norm_num [round2, roundTo, round_eq],
      show round2 (((4508:ℕ):ℚ) / ((22500:ℕ):ℚ) * 100) = 501/25 from by
        norm_num [round2, roundTo, round_eq],
      show round2 (((4499:ℕ):ℚ) / ((22500:ℕ):ℚ) * 100) = 20 from by
        norm_num [round2, roundTo, round_eq],
      show round2 (((4490:ℕ):ℚ) / ((22500:ℕ):ℚ) * 100) = 499/25 from by
        norm_num [round2, roundTo, round_eq],
      show round2 (((4481:ℕ):ℚ) / ((22500:ℕ):ℚ) * 100) = 498/25 from by
        norm_num [round2, roundTo, round_eq]]
  norm_num
/-- Counterexample to claim C1 as stated: a per-image service
configuration in which every guarded analyzer returns normally but the
unguarded object-detection call raises (modelled by `Except.error`, e.g.
a failing YOLO model load).  The orchestrator, which wraps no call in a
handler of its own, aborts: it returns the error instead of a report, so
no report with the fixed set of sections comes back. -/
theorem claim_C1_counterexample :
    analyze_neuromarketing (π := Unit)
      { width := 100, height := 100,
        detect := Except.error "YOLO model failed to load",
        ocr := ⟨"", [], 0, "easyocr"⟩,
        colors := ⟨[], 0, "neutral", 0⟩,
        emotion := ⟨0, "neutral", 0⟩,
        gaze := (), pose := ⟨"nenhum", "", ()⟩, depth := (), symmetry := (),
        lighting := (), texture := (), scene := (), attention := (),
        attentionPoints := [] } = Except.error "YOLO model failed to load" := rfl

/-- Claim C1 (amended): every analyzer except object detection guards
its own body with `try/except` and so degrades to a per-section default
instead of raising — those failures are localized to their sections —
and whenever the object-detection step returns normally the orchestrator
returns `Except.ok` with the complete fixed-shape report (every section
present, the detected objects in the `objetos` section); but the
orchestrator itself wraps no call, so an exception escaping the
unguarded `detect_sample_model` aborts the whole report (see the
counterexample). -/
theorem claim_C1_orchestrator_amended {π : Type} (s : NmServices π) (objs : List DetObj)
    (hdet : s.detect = Except.ok objs) :
    ∃ r : NmReport π, analyze_neuromarketing s = Except.ok r ∧ r.objetos = objs := by
  unfold analyze_neuromarketing
  rw [hdet]
  exact ⟨_, rfl, rfl⟩

/-- Witness for claim C1's amended theorem at a concrete configuration
whose object detection succeeds with a single detected person. -/
theorem claim_C1_witness :
    (NmServices.detect (π := Unit)
      { width := 100, height := 100,
        detect := Except.ok [⟨"person", 9/10⟩],
        ocr := ⟨"", [], 0, "easyocr"⟩,
        colors := ⟨[], 0, "neutral", 0⟩,
        emotion := ⟨0, "neutral", 0⟩,
        gaze := (), pose := ⟨"nenhum", "", ()⟩, depth := (), symmetry := (),
        lighting := (), texture := (), scene := (), attention := (),
        attentionPoints := [] } = Except.ok [⟨"person", 9/10⟩]) ∧
    ∃ r : NmReport Unit,
      analyze_neuromarketing (π := Unit)
        { width := 100, height := 100,
          detect := Except.ok [⟨"person", 9/10⟩],
          ocr := ⟨"", [], 0, "easyocr"⟩,
          colors := ⟨[], 0, "neutral", 0⟩,
          emotion := ⟨0, "neutral", 0⟩,
          gaze := (), pose := ⟨"nenhum", "", ()⟩, depth := (), symmetry := (),
          lighting := (), texture := (), scene := (), attention := (),
          attentionPoints := [] } = Except.ok r ∧ r.objetos = [⟨"person", 9/10⟩] :=
  ⟨rfl, claim_C1_orchestrator_amended _ [⟨"person", 9/10⟩] rfl⟩

end ElroiVision
